import Mathlib

/-!
# Verification of the AutoFlow workflow validation & permission-inference engine

Shallow embedding of `src/core/validator.ts`, `src/core/permission-mappings.ts`
and `src/core/pack-aggregator.ts`.

Modelling conventions:
* TypeScript optional fields become `Option`; JavaScript string truthiness
  (`""` and `undefined` are falsy) is modelled by `strTruthy`.
* `Record<string, T>` object literals and `Map` values become association
  lists (`List (String × T)`); JS `Map` insertion-order semantics are kept.
* Regular-expression *sources* carried in the configuration are abstracted to
  a `RegexSrc`: a `compiles` flag (whether `new RegExp` succeeds) plus the
  `test` predicate.  The fixed SemVer regex literal of the source is
  implemented concretely as `semverTest`.  The two naming patterns
  (`workflowIdPattern`, `nodeIdPattern`) are carried by the source config but
  never consulted by any code path, so they are not modelled.
* The validator instance's mutable `nextIssueId` counter is threaded
  explicitly as a `Nat`; each issue is a `LintIssue` = generated `id` plus the
  id-independent `IssueData`.
* JavaScript exceptions are modelled by `Except JsError`; the `async`
  `validateNodes` method returns a `Promise`, and spreading that promise in
  `validateWorkflow` raises a `TypeError`, modelled by `JsError.promiseSpread`.
* `Date.now()` timestamps and `analysisTime` are wall-clock values and are
  omitted from the result model; `rulesExecuted` is kept.
* `getPermissionSeverity` reads `PERMISSION_SEVERITY[permission]` with JS
  bracket semantics, which consult the prototype chain: at an
  `Object.prototype` property name the truthy inherited member is returned and
  the `|| 'safe'` fallback never fires (`JsPermSeverity.protoMember`).
* JS `Array.prototype.sort()` (default comparator on these ASCII permission
  strings) is modelled by `List.insertionSort` over the lexicographic
  comparison `strLeR` (Lean's built-in `String` order does not reduce in the
  kernel, so an explicit reducible comparison is used).
-/

/-- JS string truthiness for `Option String` fields: absent or empty is falsy. -/
def strTruthy : Option String → Bool
  | none => false
  | some s => !s.isEmpty

/-- Severity of a lint issue. -/
inductive Severity
  | info | warn | error | critical
deriving DecidableEq, Repr

/-- Issue family: `AUT` = authoring problems, `SYS` = platform failures. -/
inductive Family
  | AUT | SYS
deriving DecidableEq, Repr

/-- Enablement level of a rule.  The TS type is `'off' | 'warn' | 'error'`,
but the default table literally assigns `'info'` to two rules, so the runtime
value space includes `info` (still enabled, being neither absent nor `'off'`). -/
inductive RuleLevel
  | off | warn | error | info
deriving DecidableEq, Repr

/-- Node kinds; the source literal `'end'` is rendered `endNode` (Lean keyword). -/
inductive NodeType
  | trigger | action | condition | transformer | endNode
deriving DecidableEq, Repr

/-- Trigger kinds. -/
inductive TriggerType
  | event | slash_command | prefixed_command | schedule
deriving DecidableEq, Repr

/-- Source `WorkflowTrigger`; only `type` and `event` are ever read by the engine. -/
structure WorkflowTrigger where
  type : TriggerType
  event : Option String := none
deriving DecidableEq, Repr

/-- Source `WorkflowNode`; `params` and `onError` are never read by the engine. -/
structure WorkflowNode where
  id : String
  type : NodeType
  action : Option String := none
  connections : Option (List String) := none
  weight : Option Int := none
  permissions : Option (List String) := none
deriving DecidableEq, Repr

/-- Source `VariableDefinition`; the engine only reads `name`. -/
structure VariableDefinition where
  name : String
deriving DecidableEq, Repr

/-- Source `Partial<AutomaterWorkflow>` as consumed by `validateWorkflow`; only the
fields the engine reads are modelled (`description`, `icon`, … are ignored). -/
structure AutomaterWorkflow where
  id : Option String := none
  name : Option String := none
  version : Option String := none
  trigger : Option WorkflowTrigger := none
  nodes : Option (List WorkflowNode) := none
  permissions : Option (List String) := none
  «variables» : Option (List VariableDefinition) := none
deriving DecidableEq, Repr

/-- Issue location (`line`/`column` are never produced by the engine). -/
structure IssueLocation where
  nodeId : Option String := none
  edgeId : Option String := none
  path : Option String := none
deriving DecidableEq, Repr

/-- The id-independent content of a `LintIssue`. -/
structure IssueData where
  ruleId : String
  errorCode : String
  family : Family
  severity : Severity
  message : String
  remediation : String
  location : Option IssueLocation := none
  suggestions : Option (List String) := none
  fixable : Bool := false
deriving DecidableEq, Repr

/-- A `LintIssue`: the generated diagnostic `id` plus its content.
`timestamp` (wall clock) is omitted. -/
structure LintIssue where
  id : String
  data : IssueData
deriving DecidableEq, Repr

def LintIssue.ruleId (i : LintIssue) : String := i.data.ruleId
def LintIssue.errorCode (i : LintIssue) : String := i.data.errorCode
def LintIssue.severity (i : LintIssue) : Severity := i.data.severity
def LintIssue.fixable (i : LintIssue) : Bool := i.data.fixable
def LintIssue.location (i : LintIssue) : Option IssueLocation := i.data.location

/-- The `nodeId` of an issue's location, when both are present. -/
def locNodeId (i : LintIssue) : Option String := i.data.location.bind (·.nodeId)

/-- Summary counts of a validation run. -/
structure LintSummary where
  total : Nat
  errors : Nat
  warnings : Nat
  infos : Nat
  criticals : Nat
deriving DecidableEq, Repr

/-- Source `WorkflowLintResult`; `timestamp` and `performance.analysisTime` (wall
clock) are omitted, `performance.rulesExecuted` is kept. -/
structure WorkflowLintResult where
  workflowId : String
  isValid : Bool
  summary : LintSummary
  issues : List LintIssue
  errors : List LintIssue
  warnings : List LintIssue
  infos : List LintIssue
  criticals : List LintIssue
  fixableCount : Nat
  rulesExecuted : Nat
deriving DecidableEq, Repr

/-- A regular-expression source string, abstracted to whether `new RegExp`
succeeds on it and to its `test` predicate. -/
structure RegexSrc where
  compiles : Bool
  test : String → Bool

/-- Source `settings.rateLimits`. -/
structure RateLimitSettings where
  maxWorkflowWeight : Int
  maxNodeWeight : Int
  warnThreshold : ℚ

/-- Source `settings.naming`; only `variableNamePattern` is ever consulted. -/
structure NamingSettings where
  variableNamePattern : Option RegexSrc := none

/-- The `settings` of a `LintConfig`. -/
structure LintSettings where
  rateLimits : Option RateLimitSettings := none
  naming : Option NamingSettings := none

/-- The effective (already merged) `LintConfig` of a validator instance:
`rules` maps a rule id to its level when present in the rule table. -/
structure LintConfig where
  rules : String → Option RuleLevel
  settings : Option LintSettings := none

/-- The default variable-name pattern, source `'^[a-zA-Z][a-zA-Z0-9_]*$'`. -/
def defaultVarNameTest (s : String) : Bool :=
  match s.data with
  | [] => false
  | c :: cs => (c.isAlpha) && cs.all (fun d => d.isAlphanum || d == '_')

/-- The default rule table of `DEFAULT_LINT_CONFIG`. -/
def defaultRulesList : List (String × RuleLevel) :=
  [("schema/required-fields", .error),
   ("schema/field-types", .error),
   ("schema/semver", .error),
   ("schema/enum-values", .error),
   ("graph/missing-nodes", .error),
   ("graph/entry-points", .error),
   ("graph/unreachable-nodes", .warn),
   ("graph/infinite-loops", .error),
   ("graph/dead-ends", .warn),
   ("variable/undefined-reference", .error),
   ("variable/invalid-interpolation", .error),
   ("variable/scope-mismatch", .warn),
   ("variable/naming-convention", .warn),
   ("trigger/unknown-event", .error),
   ("trigger/invalid-command", .error),
   ("action/unknown-type", .error),
   ("action/missing-params", .error),
   ("security/missing-permissions", .error),
   ("security/excessive-permissions", .warn),
   ("security/hardcoded-secrets", .error),
   ("security/pii-exposure", .warn),
   ("perf/missing-weight", .warn),
   ("perf/high-weight", .warn),
   ("perf/deep-nesting", .warn),
   ("perf/large-workflow", .info),
   ("style/naming-convention", .warn),
   ("style/description-required", .warn),
   ("style/icon-color-consistency", .info),
   ("style/deprecated-features", .warn)]

/-- Source `DEFAULT_LINT_CONFIG`. -/
def DEFAULT_LINT_CONFIG : LintConfig where
  rules := fun r => defaultRulesList.lookup r
  settings := some
    { rateLimits := some { maxWorkflowWeight := 1000, maxNodeWeight := 100, warnThreshold := (4 : ℚ) / 5 }
      naming := some { variableNamePattern := some ⟨true, defaultVarNameTest⟩ } }

/-- Table `ACTION_PERMISSION_MAPPINGS` from `permission-mappings.ts`. -/
def ACTION_PERMISSION_MAPPINGS : List (String × List String) :=
  [("send_message", ["SEND_MESSAGES", "VIEW_CHANNEL"]),
   ("edit_message", ["SEND_MESSAGES", "VIEW_CHANNEL"]),
   ("send_direct_message", []),
   ("delete_message", ["MANAGE_MESSAGES", "VIEW_CHANNEL"]),
   ("log_event", ["SEND_MESSAGES", "VIEW_CHANNEL"]),
   ("add_role", ["MANAGE_ROLES"]),
   ("remove_role", ["MANAGE_ROLES"]),
   ("change_nickname", ["MANAGE_NICKNAMES"]),
   ("kick_user", ["KICK_MEMBERS"]),
   ("ban_user", ["BAN_MEMBERS"]),
   ("unban_user", ["BAN_MEMBERS"]),
   ("mute_user", ["MODERATE_MEMBERS"]),
   ("unmute_user", ["MODERATE_MEMBERS"]),
   ("create_channel", ["MANAGE_CHANNELS"]),
   ("delete_channel", ["MANAGE_CHANNELS"]),
   ("create_category", ["MANAGE_CHANNELS"]),
   ("modify_channel", ["MANAGE_CHANNELS"]),
   ("add_reaction", ["ADD_REACTIONS", "VIEW_CHANNEL"]),
   ("remove_reaction", ["MANAGE_MESSAGES", "VIEW_CHANNEL"]),
   ("pin_message", ["MANAGE_MESSAGES", "VIEW_CHANNEL"]),
   ("unpin_message", ["MANAGE_MESSAGES", "VIEW_CHANNEL"]),
   ("variable_update", []),
   ("database_insert", []),
   ("database_query", []),
   ("webhook_send", ["MANAGE_WEBHOOKS"]),
   ("http_request", []),
   ("create_invite", ["CREATE_INSTANT_INVITE"])]

/-- Table `TRIGGER_PERMISSION_MAPPINGS` from `permission-mappings.ts`. -/
def TRIGGER_PERMISSION_MAPPINGS : List (String × List String) :=
  [("user_join", []),
   ("user_leave", []),
   ("user_ban", []),
   ("user_kick", []),
   ("user_update", []),
   ("send_message", ["VIEW_CHANNEL"]),
   ("message_delete", ["VIEW_CHANNEL"]),
   ("message_edit", ["VIEW_CHANNEL"]),
   ("channel_create", []),
   ("channel_delete", []),
   ("role_create", []),
   ("role_delete", []),
   ("role_add", []),
   ("role_remove", []),
   ("reaction_add", ["VIEW_CHANNEL"]),
   ("reaction_remove", ["VIEW_CHANNEL"]),
   ("voice_channel_join", ["VIEW_CHANNEL", "CONNECT"]),
   ("voice_channel_leave", ["VIEW_CHANNEL", "CONNECT"]),
   ("server_update", []),
   ("slash_command", []),
   ("prefixed_command", [])]

/-- Permission severity classes. -/
inductive PermSeverity
  | safe | moderate | dangerous
deriving DecidableEq, Repr

/-- Table `PERMISSION_SEVERITY` from `permission-mappings.ts`. -/
def PERMISSION_SEVERITY : List (String × PermSeverity) :=
  [("ADMINISTRATOR", .dangerous),
   ("BAN_MEMBERS", .dangerous),
   ("KICK_MEMBERS", .dangerous),
   ("MANAGE_GUILD", .dangerous),
   ("MANAGE_ROLES", .dangerous),
   ("MANAGE_WEBHOOKS", .dangerous),
   ("MODERATE_MEMBERS", .dangerous),
   ("MANAGE_CHANNELS", .moderate),
   ("MANAGE_MESSAGES", .moderate),
   ("MANAGE_NICKNAMES", .moderate),
   ("MANAGE_THREADS", .moderate),
   ("MANAGE_EVENTS", .moderate),
   ("MANAGE_EMOJIS_AND_STICKERS", .moderate),
   ("SEND_MESSAGES", .safe),
   ("VIEW_CHANNEL", .safe),
   ("ADD_REACTIONS", .safe),
   ("CREATE_INSTANT_INVITE", .safe),
   ("READ_MESSAGE_HISTORY", .safe),
   ("SEND_MESSAGES_IN_THREADS", .safe),
   ("EMBED_LINKS", .safe),
   ("ATTACH_FILES", .safe),
   ("USE_EXTERNAL_EMOJIS", .safe),
   ("USE_EXTERNAL_STICKERS", .safe),
   ("CONNECT", .safe),
   ("SPEAK", .safe),
   ("STREAM", .safe),
   ("USE_VAD", .safe),
   ("CHANGE_NICKNAME", .safe),
   ("USE_APPLICATION_COMMANDS", .safe)]

/-- Source `hasActionPermissionMapping`. -/
def hasActionPermissionMapping (action : String) : Bool :=
  (ACTION_PERMISSION_MAPPINGS.lookup action).isSome

/-- Source `hasTriggerPermissionMapping`. -/
def hasTriggerPermissionMapping (trigger : String) : Bool :=
  (TRIGGER_PERMISSION_MAPPINGS.lookup trigger).isSome

/-- The property names every plain JS object literal inherits from
`Object.prototype`; bracket lookup on `PERMISSION_SEVERITY` at one of these
keys yields the inherited member (a function, or `Object.prototype` itself for
the `__proto__` accessor), which is truthy, so the `|| 'safe'` fallback never
fires there. -/
def OBJECT_PROTOTYPE_KEYS : List String :=
  ["constructor", "hasOwnProperty", "isPrototypeOf", "propertyIsEnumerable",
   "toLocaleString", "toString", "valueOf",
   "__defineGetter__", "__defineSetter__", "__lookupGetter__", "__lookupSetter__",
   "__proto__"]

/-- The runtime value `PERMISSION_SEVERITY[permission] || 'safe'` can take:
a severity string, or (despite the declared TS return type) a member inherited
from `Object.prototype` when `permission` is one of its property names. -/
inductive JsPermSeverity
  | sev (s : PermSeverity)
  | protoMember (name : String)
deriving DecidableEq, Repr

/-- Source `getPermissionSeverity`: JS bracket lookup on the object literal
(own property, else the prototype chain) with `'safe'` as the `||` fallback
for the only falsy outcome, `undefined`. -/
def getPermissionSeverity (permission : String) : JsPermSeverity :=
  match PERMISSION_SEVERITY.lookup permission with
  | some s => .sev s
  | none =>
    if permission ∈ OBJECT_PROTOTYPE_KEYS then .protoMember permission
    else .sev .safe

/-- JS `Set.prototype.add` on an insertion-ordered duplicate-free list. -/
def setAdd (s : List String) (x : String) : List String :=
  if x ∈ s then s else s ++ [x]

/-- Lexicographic comparison of character lists (by code point, which on the
ASCII permission strings of this engine coincides with the UTF-16 code-unit
order that `Array.prototype.sort()`'s default comparator uses). -/
def strLeB : List Char → List Char → Bool
  | [], _ => true
  | _ :: _, [] => false
  | a :: as, b :: bs =>
    if a < b then true
    else if b < a then false
    else strLeB as bs

/-- Lexicographic string comparison. -/
def strLe (a b : String) : Bool :=
  strLeB a.data b.data

/-- The ordering relation used to model the default JS sort comparator. -/
def strLeR (a b : String) : Prop :=
  strLe a b = true

instance : DecidableRel strLeR := fun a b => instDecidableEqBool (strLe a b) true

/-- JS `Array.prototype.sort()` with the default comparator: a stable
lexicographic string sort. -/
def sortStrings (l : List String) : List String :=
  l.insertionSort strLeR

/-- JavaScript runtime exceptions the engine can raise internally. -/
inductive JsError
  | promiseSpread
  | invalidRegex
  | nodesNotIterable
deriving DecidableEq, Repr

/-- A representative host-engine message for each exception
(the exact text is host-specific and never branched on). -/
def jsMessage : JsError → String
  | .promiseSpread => "nodeIssues is not iterable"
  | .invalidRegex => "Invalid regular expression"
  | .nodesNotIterable => "workflow.nodes is not iterable"

/-- Source `detectRequiredPermissions` (pure, non-mutating).  Iterating
`workflow.nodes` throws a `TypeError` when the field is absent. -/
def detectRequiredPermissions (workflow : AutomaterWorkflow) :
    Except JsError (List String) :=
  match workflow.nodes with
  | none => .error .nodesNotIterable
  | some nodes =>
    let s0 : List String :=
      match workflow.trigger.bind (·.event) with
      | some triggerEvent =>
        if strTruthy (some triggerEvent) then
          match TRIGGER_PERMISSION_MAPPINGS.lookup triggerEvent with
          | some triggerPerms => triggerPerms.foldl setAdd []
          | none => []
        else []
      | none => []
    let s1 : List String := nodes.foldl
      (fun s node =>
        if node.type = .action && strTruthy node.action then
          match ACTION_PERMISSION_MAPPINGS.lookup (node.action.getD "") with
          | some actionPerms => actionPerms.foldl setAdd s
          | none => s
        else s) s0
    .ok (sortStrings s1)

/-- Source `AutomaterPack`; `automations` is `Option` to model the defensive
`pack.automations || []` for JS callers that omit the field. -/
structure AutomaterPack where
  id : String := ""
  name : String := ""
  version : String := ""
  automations : Option (List AutomaterWorkflow) := none

/-- The accumulation loop of `aggregatePackPermissions`: add every detected
permission of every automation to one set, propagating any exception. -/
def collectPackPermissions :
    List AutomaterWorkflow → List String → Except JsError (List String)
  | [], allPermissions => .ok allPermissions
  | automation :: rest, allPermissions =>
    match detectRequiredPermissions automation with
    | .error e => .error e
    | .ok workflowPermissions =>
      collectPackPermissions rest (workflowPermissions.foldl setAdd allPermissions)

/-- Source `aggregatePackPermissions`. -/
def aggregatePackPermissions (pack : AutomaterPack) : Except JsError (List String) :=
  match collectPackPermissions (pack.automations.getD []) [] with
  | .error e => .error e
  | .ok allPermissions => .ok (sortStrings allPermissions)

/-- The per-permission score used by `calculatePackPermissionWeight`:
dangerous = 10, moderate = 3, safe = 1. -/
def permissionScore (perm : String) : Int :=
  match getPermissionSeverity perm with
  | .sev .dangerous => 10
  | .sev .moderate => 3
  | .sev .safe => 1
  | .protoMember _ => 0

/-- Source `calculatePackPermissionWeight`. -/
def calculatePackPermissionWeight (pack : AutomaterPack) : Except JsError Int :=
  match aggregatePackPermissions pack with
  | .error e => .error e
  | .ok permissions => .ok (permissions.foldl (fun weight perm => weight + permissionScore perm) 0)

/-- Source `getDangerousPermissions`. -/
def getDangerousPermissions (pack : AutomaterPack) : Except JsError (List String) :=
  match aggregatePackPermissions pack with
  | .error e => .error e
  | .ok permissions => .ok (permissions.filter (fun perm => getPermissionSeverity perm == .sev .dangerous))

/-- Error-catalog keys (`keyof typeof ERROR_CATALOG`). -/
inductive ErrCode
  | e3310 | e3311 | e3312 | e3313 | e4120 | e4121 | e5510 | e5511
deriving DecidableEq, Repr

/-- The numeric value of a catalog key. -/
def ErrCode.num : ErrCode → Nat
  | .e3310 => 3310
  | .e3311 => 3311
  | .e3312 => 3312
  | .e3313 => 3313
  | .e4120 => 4120
  | .e4121 => 4121
  | .e5510 => 5510
  | .e5511 => 5511

/-- One entry of the issue catalog. -/
structure CatalogEntry where
  family : Family
  severity : Severity
  message : String
  remediation : String

/-- Table `ERROR_CATALOG` from `validator.ts`. -/
def ERROR_CATALOG : ErrCode → CatalogEntry
  | .e3310 => ⟨.AUT, .warn, "Workflow contains unreachable nodes",
      "Remove unreachable nodes or add connections to make them reachable"⟩
  | .e3311 => ⟨.AUT, .error, "Node is missing required connections",
      "Add connections array to node or connect to valid target nodes"⟩
  | .e3312 => ⟨.AUT, .error, "Invalid variable interpolation syntax",
      "Use correct syntax: \x7bvariable.name\x7d or \x7bmember.displayName\x7d"⟩
  | .e3313 => ⟨.AUT, .warn, "Icon is not in the approved icon catalog",
      "Choose from approved icons in Icon System PRD"⟩
  | .e4120 => ⟨.AUT, .warn, "Workflow weight may cause rate limiting",
      "Reduce node weight or optimize workflow to use fewer resources"⟩
  | .e4121 => ⟨.AUT, .warn, "Action node missing rate limit weight",
      "Add weight property to action node for accurate rate limiting"⟩
  | .e5510 => ⟨.SYS, .error, "Unable to parse workflow file",
      "Check JSON syntax and workflow structure"⟩
  | .e5511 => ⟨.SYS, .error, "Workflow schema validation failed",
      "Fix schema violations listed in validation errors"⟩

/-- Render a family tag. -/
def familyStr : Family → String
  | .AUT => "AUT"
  | .SYS => "SYS"

/-- The id-independent content produced by `createIssue`. -/
def mkIssueData (ruleId : String) (errorCode : ErrCode) (message : Option String)
    (location : Option IssueLocation) (suggestions : Option (List String)) : IssueData :=
  let catalog := ERROR_CATALOG errorCode
  { ruleId := ruleId
    errorCode := familyStr catalog.family ++ "-" ++ toString errorCode.num
    family := catalog.family
    severity := catalog.severity
    message := message.getD catalog.message
    remediation := catalog.remediation
    location := location
    suggestions := suggestions
    fixable := false }

/-- Source `createIssue`: builds the issue and bumps `nextIssueId`. -/
def createIssue (ruleId : String) (errorCode : ErrCode) (message : Option String)
    (location : Option IssueLocation) (suggestions : Option (List String)) (n : Nat) :
    LintIssue × Nat :=
  ({ id := "issue-" ++ toString n, data := mkIssueData ruleId errorCode message location suggestions }, n + 1)

/-- Source `createSystemError` (fields are hard-coded, not catalog-derived). -/
def createSystemError (error : JsError) (n : Nat) : LintIssue × Nat :=
  ({ id := "system-error-" ++ toString n
     data := { ruleId := "system/parse-error"
               errorCode := "SYS-5510"
               family := .SYS
               severity := .error
               message := "System error: " ++ jsMessage error
               remediation := "Check workflow structure and try again"
               location := none
               suggestions := none
               fixable := false } }, n + 1)

/-- Source `isRuleEnabled`: present in the rule table and not `'off'`. -/
def isRuleEnabled (cfg : LintConfig) (ruleId : String) : Bool :=
  match cfg.rules ruleId with
  | some level => level != .off
  | none => false

/-- Source `filterIssues`: post-hoc filtering by rule configuration. -/
def filterIssues (cfg : LintConfig) (issues : List LintIssue) : List LintIssue :=
  issues.filter (fun issue => isRuleEnabled cfg issue.ruleId)

/-- Access `settings?.rateLimits?.maxNodeWeight || 100`. -/
def cfgMaxNodeWeight (cfg : LintConfig) : Int :=
  match cfg.settings.bind (·.rateLimits) with
  | some r => if r.maxNodeWeight == 0 then 100 else r.maxNodeWeight
  | none => 100

/-- Access `settings?.rateLimits?.maxWorkflowWeight || 1000`. -/
def cfgMaxWorkflowWeight (cfg : LintConfig) : Int :=
  match cfg.settings.bind (·.rateLimits) with
  | some r => if r.maxWorkflowWeight == 0 then 1000 else r.maxWorkflowWeight
  | none => 1000

/-- Access `settings?.rateLimits?.warnThreshold || 0.8`. -/
def cfgWarnThreshold (cfg : LintConfig) : ℚ :=
  match cfg.settings.bind (·.rateLimits) with
  | some r => if r.warnThreshold == 0 then (4 : ℚ) / 5 else r.warnThreshold
  | none => (4 : ℚ) / 5

/-- Access `settings?.naming?.variableNamePattern || '^[a-zA-Z][a-zA-Z0-9_]*$'`. -/
def cfgVariableNamePattern (cfg : LintConfig) : RegexSrc :=
  ((cfg.settings.bind (·.naming)).bind (·.variableNamePattern)).getD ⟨true, defaultVarNameTest⟩

/-- Consume `0|[1-9]\d*` from a character list (deterministic: the regex
alternation admits no backtracking that could change the outcome). -/
def semverNum : List Char → Option (List Char)
  | [] => none
  | c :: rest =>
    if c == '0' then some rest
    else if '1' ≤ c && c ≤ '9' then some (rest.dropWhile Char.isDigit)
    else none

/-- Membership in the character class `[0-9A-Za-z.-]`. -/
def semverIdentChar (c : Char) : Bool :=
  c.isAlphanum || c == '.' || c == '-'

/-- Consume an optional `-[0-9A-Za-z.-]+` pre-release part. -/
def semverPre : List Char → Option (List Char)
  | '-' :: rest =>
    if (rest.takeWhile semverIdentChar).isEmpty then none
    else some (rest.dropWhile semverIdentChar)
  | cs => some cs

/-- Consume an optional `+[0-9A-Za-z.-]+` build part. -/
def semverBuild : List Char → Option (List Char)
  | '+' :: rest =>
    if (rest.takeWhile semverIdentChar).isEmpty then none
    else some (rest.dropWhile semverIdentChar)
  | cs => some cs

/-- The fixed SemVer regex literal of `validateWorkflowStructure`:
`^(0|[1-9]\d*)\.(0|[1-9]\d*)\.(0|[1-9]\d*)(?:-[0-9A-Za-z.-]+)?(?:\+[0-9A-Za-z.-]+)?$`. -/
def semverTest (s : String) : Bool :=
  match semverNum s.data with
  | none => false
  | some r1 =>
    match r1 with
    | '.' :: r2 =>
      match semverNum r2 with
      | none => false
      | some r3 =>
        match r3 with
        | '.' :: r4 =>
          match semverNum r4 with
          | none => false
          | some r5 =>
            match semverPre r5 with
            | none => false
            | some r6 =>
              match semverBuild r6 with
              | none => false
              | some r7 => r7.isEmpty
        | _ => false
    | _ => false

/-- One `schema/required-fields` issue for a missing field. -/
def mkRequiredFieldIssue (field : String) (n : Nat) : LintIssue × Nat :=
  createIssue "schema/required-fields" .e5511
    (some ("Required field \x27" ++ field ++ "\x27 is missing"))
    (some { path := some field }) none n

/-- Source `validateWorkflowStructure`: required fields (the loop over
`['id', 'name', 'version', 'trigger']` is unrolled), then SemVer format.
Note the early `return` makes the `schema/required-fields` rule gate the
SemVer check as well. -/
def validateWorkflowStructure (cfg : LintConfig) (workflow : AutomaterWorkflow) (n : Nat) :
    List LintIssue × Nat :=
  if !(isRuleEnabled cfg "schema/required-fields") then ([], n) else
  let p1 := if !(strTruthy workflow.id) then
      (fun p => ([p.1], p.2)) (mkRequiredFieldIssue "id" n) else ([], n)
  let p2 := if !(strTruthy workflow.name) then
      (fun p => ([p.1], p.2)) (mkRequiredFieldIssue "name" p1.2) else ([], p1.2)
  let p3 := if !(strTruthy workflow.version) then
      (fun p => ([p.1], p.2)) (mkRequiredFieldIssue "version" p2.2) else ([], p2.2)
  let p4 := if workflow.trigger.isNone then
      (fun p => ([p.1], p.2)) (mkRequiredFieldIssue "trigger" p3.2) else ([], p3.2)
  let p5 :=
    if strTruthy workflow.version && isRuleEnabled cfg "schema/semver"
        && !(semverTest (workflow.version.getD "")) then
      (fun p => ([p.1], p.2)) (createIssue "schema/semver" .e5511
        (some "Version must be valid SemVer (e.g., 1.2.3)")
        (some { path := some "version" }) none p4.2)
    else ([], p4.2)
  (p1.1 ++ p2.1 ++ p3.1 ++ p4.1 ++ p5.1, p5.2)

/-- JS `Map.prototype.set` on an insertion-ordered association list. -/
def mset (m : List (String × List String)) (k : String) (v : List String) :
    List (String × List String) :=
  if (m.lookup k).isSome then m.map (fun p => if p.1 == k then (k, v) else p)
  else m ++ [(k, v)]

/-- JS `map.get(k)?.push(v)`: appends when the key exists, otherwise no-op. -/
def mpush (m : List (String × List String)) (k : String) (v : String) :
    List (String × List String) :=
  m.map (fun p => if p.1 == k then (p.1, p.2 ++ [v]) else p)

/-- The initialization loop: every declared node id maps to an empty list. -/
def initAdj (nodes : List WorkflowNode) : List (String × List String) :=
  nodes.foldl (fun m node => mset m node.id []) []

/-- State of the connection-building loop of `validateGraphIntegrity`. -/
structure GraphBuild where
  fwd : List (String × List String)
  rev : List (String × List String)
  issues : List LintIssue
  counter : Nat
deriving Repr

/-- One iteration of the inner connection loop of `validateGraphIntegrity`:
a dangling target raises `graph/missing-nodes` (when that rule is enabled)
and is then skipped (`continue`); otherwise the edge is pushed into both
adjacency maps. -/
def graphEdgeStep (cfg : LintConfig) (nodeIds : List String) (node : WorkflowNode)
    (st : GraphBuild) (targetId : String) : GraphBuild :=
  if !(nodeIds.contains targetId) && isRuleEnabled cfg "graph/missing-nodes" then
    let (issue, n') := createIssue "graph/missing-nodes" .e3311
      (some ("Node \x27" ++ node.id ++ "\x27 connects to non-existent node \x27" ++ targetId ++ "\x27"))
      (some { nodeId := some node.id }) none st.counter
    { st with issues := st.issues ++ [issue], counter := n' }
  else
    { st with fwd := mpush st.fwd node.id targetId
              rev := mpush st.rev targetId node.id }

/-- One iteration of the outer connection loop of `validateGraphIntegrity`. -/
def graphNodeStep (cfg : LintConfig) (nodeIds : List String)
    (st : GraphBuild) (node : WorkflowNode) : GraphBuild :=
  (node.connections.getD []).foldl (graphEdgeStep cfg nodeIds node) st

/-- The connection-building loop of `validateGraphIntegrity`. -/
def buildGraphData (cfg : LintConfig) (nodes : List WorkflowNode) (n : Nat) : GraphBuild :=
  nodes.foldl (graphNodeStep cfg (nodes.map (·.id)))
    { fwd := initAdj nodes, rev := initAdj nodes, issues := [], counter := n }

/-- Entry points: trigger-kind nodes or nodes with zero reverse adjacency. -/
def entryNodesOf (nodes : List WorkflowNode) (rev : List (String × List String)) :
    List WorkflowNode :=
  nodes.filter (fun node =>
    node.type == .trigger || ((rev.lookup node.id).getD []).length == 0)

/-- The recursive `dfs` closure of `validateGraphIntegrity`: mark the node
visited, then recurse into its forward-adjacency neighbors, with a
visited-set check making cycles terminate.  The `fuel` argument bounds the
recursion depth; `graphFuel` below always suffices, since each productive
call adds a new id to the visited set. -/
def dfs (fwd : List (String × List String)) : Nat → List String → String → List String
  | 0, reachable, _ => reachable
  | fuel + 1, reachable, nodeId =>
    if nodeId ∈ reachable then reachable
    else ((fwd.lookup nodeId).getD []).foldl (fun vis connected => dfs fwd fuel vis connected)
      (nodeId :: reachable)

/-- A recursion-depth bound for `dfs` on this graph. -/
def graphFuel (nodes : List WorkflowNode) : Nat :=
  nodes.length + nodes.foldl (fun a node => a + (node.connections.getD []).length) 0 + 1

/-- One iteration of the unreachable-node reporting loop. -/
def unreachableStep (acc : List LintIssue × Nat) (node : WorkflowNode) :
    List LintIssue × Nat :=
  let (issue, n') := createIssue "graph/unreachable-nodes" .e3310
    (some ("Node \x27" ++ node.id ++ "\x27 is unreachable from entry points"))
    (some { nodeId := some node.id }) none acc.2
  (acc.1 ++ [issue], n')

/-- Source `validateGraphIntegrity`. -/
def validateGraphIntegrity (cfg : LintConfig) (nodes : List WorkflowNode) (n : Nat) :
    List LintIssue × Nat :=
  if nodes.isEmpty then ([], n) else
  let g := buildGraphData cfg nodes n
  let entryNodes := entryNodesOf nodes g.rev
  let (entryIssues, n1) :=
    if isRuleEnabled cfg "graph/entry-points" && entryNodes.isEmpty then
      (fun p => ([p.1], p.2)) (createIssue "graph/entry-points" .e3311
        (some "Workflow must have at least one entry point (trigger node)")
        (some { path := some "nodes" }) none g.counter)
    else ([], g.counter)
  let (unreachableIssues, n2) :=
    if isRuleEnabled cfg "graph/unreachable-nodes" then
      let reachable := entryNodes.foldl
        (fun vis node => dfs g.fwd (graphFuel nodes) vis node.id) []
      let unreachableNodes := nodes.filter (fun node => !(reachable.contains node.id))
      unreachableNodes.foldl unreachableStep ([], n1)
    else ([], n1)
  (g.issues ++ entryIssues ++ unreachableIssues, n2)

/-- Source `validateNodeList`: per-node action-type, missing-weight and
high-weight checks. -/
def validateNodeList (cfg : LintConfig) (nodes : List WorkflowNode) (n : Nat) :
    List LintIssue × Nat :=
  nodes.foldl (fun (acc : List LintIssue × Nat) node =>
    let (i1, n1) :=
      if node.type == .action && isRuleEnabled cfg "action/unknown-type"
          && !(strTruthy node.action) then
        (fun p => ([p.1], p.2)) (createIssue "action/missing-params" .e3311
          (some ("Action node \x27" ++ node.id ++ "\x27 is missing action type"))
          (some { nodeId := some node.id }) none acc.2)
      else ([], acc.2)
    let (i2, n2) :=
      if node.type == .action && isRuleEnabled cfg "perf/missing-weight"
          && node.weight.isNone then
        (fun p => ([p.1], p.2)) (createIssue "perf/missing-weight" .e4121
          (some ("Action node \x27" ++ node.id ++ "\x27 is missing rate limit weight"))
          (some { nodeId := some node.id })
          (some ["Add weight property (typical values: 5-30)"]) n1)
      else ([], n1)
    let (i3, n3) :=
      if node.weight.isSome && isRuleEnabled cfg "perf/high-weight"
          && node.weight.getD 0 > cfgMaxNodeWeight cfg then
        (fun p => ([p.1], p.2)) (createIssue "perf/high-weight" .e4120
          (some ("Node \x27" ++ node.id ++ "\x27 weight (" ++ toString (node.weight.getD 0)
            ++ ") exceeds recommended maximum (" ++ toString (cfgMaxNodeWeight cfg) ++ ")"))
          (some { nodeId := some node.id }) none n2)
      else ([], n2)
    (acc.1 ++ i1 ++ i2 ++ i3, n3)) ([], n)

/-- One iteration of the naming-check loop of `validateVariables`. -/
def variableNamingStep (test : String → Bool) (acc : List LintIssue × Nat)
    (v : VariableDefinition) : List LintIssue × Nat :=
  if !(test v.name) then
    let p := createIssue "variable/naming-convention" .e3312
      (some ("Variable name \x27" ++ v.name ++ "\x27 doesn\x27t follow naming convention"))
      (some { path := some ("variables." ++ v.name) })
      (some ["Use camelCase or snake_case naming"]) acc.2
    (acc.1 ++ [p.1], p.2)
  else acc

/-- The per-variable loop of `validateVariables` (after the regex compiled). -/
def variableLoop (test : String → Bool) (vars : List VariableDefinition) (n : Nat) :
    List LintIssue × Nat :=
  vars.foldl (variableNamingStep test) ([], n)

/-- Source `validateVariables`: rule gate, then `new RegExp(pattern)` (which
throws on a malformed pattern), then the naming check per variable. -/
def validateVariables (cfg : LintConfig) (vars : List VariableDefinition) (n : Nat) :
    Except JsError (List LintIssue × Nat) :=
  if !(isRuleEnabled cfg "variable/naming-convention") then .ok ([], n) else
  let pattern := cfgVariableNamePattern cfg
  if !pattern.compiles then .error .invalidRegex
  else .ok (variableLoop pattern.test vars n)

/-- Source `validatePerformance`: large-workflow and total-weight checks. -/
def validatePerformance (cfg : LintConfig) (workflow : AutomaterWorkflow) (n : Nat) :
    List LintIssue × Nat :=
  match workflow.nodes with
  | none => ([], n)
  | some nodes =>
    let (i1, n1) :=
      if isRuleEnabled cfg "perf/large-workflow" && nodes.length > 50 then
        (fun p => ([p.1], p.2)) (createIssue "perf/large-workflow" .e4120
          (some ("Large workflow (" ++ toString nodes.length ++ " nodes) may be difficult to maintain"))
          (some { path := some "nodes" }) none n)
      else ([], n)
    let (i2, n2) :=
      if isRuleEnabled cfg "perf/high-weight" then
        let totalWeight : Int := nodes.foldl (fun sum node => sum + node.weight.getD 0) 0
        if (totalWeight : ℚ) > (cfgMaxWorkflowWeight cfg : ℚ) * cfgWarnThreshold cfg then
          (fun p => ([p.1], p.2)) (createIssue "perf/high-weight" .e4120
            (some ("Total workflow weight (" ++ toString totalWeight ++ ") approaches rate limit threshold"))
            (some { path := some "nodes" }) none n1)
        else ([], n1)
      else ([], n1)
    (i1 ++ i2, n2)

/-- The per-node loop of `detectAndValidatePermissions`: accumulates the
permission set, annotates each action node's `permissions` field (known
mapping → that list, unknown action → `[]`), and emits
`security/missing-permissions` for unknown actions when enabled.  Nodes that
are not action-kind, or whose `action` is falsy, are left untouched. -/
def dvpLoop (cfg : LintConfig) :
    List WorkflowNode → List String → Nat →
    List WorkflowNode × List String × List LintIssue × Nat
  | [], s, n => ([], s, [], n)
  | node :: rest, s, n =>
    if node.type == .action && strTruthy node.action then
      match ACTION_PERMISSION_MAPPINGS.lookup (node.action.getD "") with
      | some actionPerms =>
        let s' := actionPerms.foldl setAdd s
        let node' := { node with permissions := some actionPerms }
        let (rest', s'', issues, n') := dvpLoop cfg rest s' n
        (node' :: rest', s'', issues, n')
      | none =>
        let (newIssues, n1) :=
          if isRuleEnabled cfg "security/missing-permissions" then
            (fun p => ([p.1], p.2)) (createIssue "security/missing-permissions" .e3311
              (some ("Unknown action \x27" ++ node.action.getD ""
                ++ "\x27 - cannot detect required permissions"))
              (some { nodeId := some node.id })
              (some ["Check if action is implemented in permission-mappings.ts",
                     "Add permission mapping for this action type"]) n)
          else ([], n)
        let node' := { node with permissions := some [] }
        let (rest', s'', issues, n') := dvpLoop cfg rest s n1
        (node' :: rest', s'', newIssues ++ issues, n')
    else
      let (rest', s'', issues, n') := dvpLoop cfg rest s n
      (node :: rest', s'', issues, n')

/-- The trigger contribution shared by `detectRequiredPermissions` and
`detectAndValidatePermissions`. -/
def triggerPermSet (workflow : AutomaterWorkflow) : List String :=
  match workflow.trigger.bind (·.event) with
  | some triggerEvent =>
    if strTruthy (some triggerEvent) then
      match TRIGGER_PERMISSION_MAPPINGS.lookup triggerEvent with
      | some triggerPerms => triggerPerms.foldl setAdd []
      | none => []
    else []
  | none => []

/-- Source `detectAndValidatePermissions` (mutating): returns the annotated
workflow, the issues and the bumped counter.  Only called when both a trigger
and a node list are present (its `for … of workflow.nodes` would otherwise
throw, like `detectRequiredPermissions`). -/
def detectAndValidatePermissions (cfg : LintConfig) (workflow : AutomaterWorkflow) (n : Nat) :
    AutomaterWorkflow × List LintIssue × Nat :=
  let (nodes', s', issues, n') :=
    dvpLoop cfg (workflow.nodes.getD []) (triggerPermSet workflow) n
  ({ workflow with nodes := some nodes', permissions := some (sortStrings s') },
   issues, n')

/-- Body of the public `async validateNodes` method (it runs synchronously up
to its `return`, producing a `Promise` of this value).  Converts the minimal
node shape, re-runs graph + node-list validation and filters. -/
def validateNodes (cfg : LintConfig) (nodes : List WorkflowNode) (n : Nat) :
    List LintIssue × Nat :=
  let workflowNodes : List WorkflowNode := nodes.map (fun node =>
    { id := node.id
      type := node.type
      action := node.action
      connections := some (node.connections.getD [])
      weight := node.weight
      permissions := none })
  let (graphIssues, n1) := validateGraphIntegrity cfg workflowNodes n
  let (nodeIssues, n2) := validateNodeList cfg workflowNodes n1
  (filterIssues cfg (graphIssues ++ nodeIssues), n2)

/-- State captured when the `try` block of `validateWorkflow` throws. -/
structure RunErr where
  err : JsError
  counter : Nat
  rulesExecuted : Nat
deriving DecidableEq, Repr

/-- State produced when the `try` block of `validateWorkflow` completes. -/
structure RunOk where
  issues : List LintIssue
  wf : AutomaterWorkflow
  counter : Nat
  rulesExecuted : Nat
deriving DecidableEq, Repr

/-- The `try` block of `validateWorkflow`, steps 1–6.  At step 3 the source
calls the `async` method `validateNodes` and spreads the returned `Promise`
(`issues.push(...nodeIssues)`), which raises a `TypeError` whenever a `nodes`
field is present; the synchronous prefix of the async body has already bumped
the issue counter by then.  Step 4 can raise from `new RegExp` on a malformed
variable-name pattern. -/
def validateWorkflowTry (cfg : LintConfig) (workflow : AutomaterWorkflow) (n : Nat) :
    Except RunErr RunOk :=
  let s1 := validateWorkflowStructure cfg workflow n
  let g : List LintIssue × Nat × Nat :=
    match workflow.nodes with
    | some ns =>
      if ns.length > 0 then
        let gr := validateGraphIntegrity cfg ns s1.2
        (gr.1, gr.2, 4 + 5)
      else ([], s1.2, 4)
    | none => ([], s1.2, 4)
  match workflow.nodes with
  | some ns =>
    -- `const nodeIssues = this.validateNodes(workflow.nodes)` returns a
    -- Promise; `issues.push(...nodeIssues)` throws before `rulesExecuted +=`.
    .error { err := .promiseSpread, counter := (validateNodes cfg ns g.2.1).2
             rulesExecuted := g.2.2 }
  | none =>
    let step4 : Except JsError (List LintIssue × Nat × Nat) :=
      match workflow.«variables» with
      | some vars =>
        match validateVariables cfg vars g.2.1 with
        | .error e => .error e
        | .ok vres => .ok (vres.1, vres.2, g.2.2 + vars.length * 2)
      | none => .ok ([], g.2.1, g.2.2)
    match step4 with
    | .error e => .error { err := e, counter := g.2.1, rulesExecuted := g.2.2 }
    | .ok v4 =>
      let p5 := validatePerformance cfg workflow v4.2.1
      let issues4 := s1.1 ++ g.1 ++ v4.1 ++ p5.1
      let rex5 := v4.2.2 + 3
      match workflow.trigger, workflow.nodes with
      | some _, some _ =>
        let d := detectAndValidatePermissions cfg workflow p5.2
        .ok { issues := issues4 ++ d.2.1, wf := d.1
              counter := d.2.2, rulesExecuted := rex5 + 1 }
      | _, _ =>
        .ok { issues := issues4, wf := workflow, counter := p5.2, rulesExecuted := rex5 }

/-- JS `workflow.id || 'unknown'`. -/
def strOrUnknown (o : Option String) : String :=
  if strTruthy o then o.getD "" else "unknown"

/-- Source `validateWorkflow`: runs the `try` block; on success filters and
categorizes, on an exception returns the synthetic `SYS-5510` result (the
`catch` block calls `createSystemError` once for `issues` and once more for
`errors`).  Returns the result, the (possibly annotated) workflow object and
the final issue counter. -/
def validateWorkflow (cfg : LintConfig) (workflow : AutomaterWorkflow) (n : Nat) :
    WorkflowLintResult × AutomaterWorkflow × Nat :=
  match validateWorkflowTry cfg workflow n with
  | .ok r =>
    let filteredIssues := filterIssues cfg r.issues
    let errors := filteredIssues.filter (fun i => i.severity == .error)
    let warnings := filteredIssues.filter (fun i => i.severity == .warn)
    let infos := filteredIssues.filter (fun i => i.severity == .info)
    let criticals := filteredIssues.filter (fun i => i.severity == .critical)
    ({ workflowId := strOrUnknown workflow.id
       isValid := errors.length == 0 && criticals.length == 0
       summary := { total := filteredIssues.length, errors := errors.length
                    warnings := warnings.length, infos := infos.length
                    criticals := criticals.length }
       issues := filteredIssues
       errors := errors, warnings := warnings, infos := infos, criticals := criticals
       fixableCount := (filteredIssues.filter (fun i => i.fixable)).length
       rulesExecuted := r.rulesExecuted }, r.wf, r.counter)
  | .error r =>
    let e1 := createSystemError r.err r.counter
    let e2 := createSystemError r.err e1.2
    ({ workflowId := strOrUnknown workflow.id
       isValid := false
       summary := { total := 1, errors := 1, warnings := 0, infos := 0, criticals := 0 }
       issues := [e1.1]
       errors := [e2.1], warnings := [], infos := [], criticals := []
       fixableCount := 0
       rulesExecuted := r.rulesExecuted }, workflow, e2.2)

/-! ## Spec-side definitions

The following definitions are written from the specification's words, for the
refinement comparison of claim C4 (every validator attempts its checks
unconditionally, the Orchestrator filters post-hoc) and for the algebraic
comparison of claim C8 (sorted duplicate-free union per automation).  They are
compared with the source-translated functions above, never used by them. -/

/-- Content of a `schema/required-fields` issue for a missing field. -/
def requiredFieldData (field : String) : IssueData :=
  mkIssueData "schema/required-fields" .e5511
    (some ("Required field \x27" ++ field ++ "\x27 is missing"))
    (some { path := some field }) none

/-- Content of the `schema/semver` issue. -/
def semverData : IssueData :=
  mkIssueData "schema/semver" .e5511
    (some "Version must be valid SemVer (e.g., 1.2.3)")
    (some { path := some "version" }) none

/-- Content of a `graph/missing-nodes` issue for a dangling edge. -/
def mkMissingNodeData (srcId targetId : String) : IssueData :=
  mkIssueData "graph/missing-nodes" .e3311
    (some ("Node \x27" ++ srcId ++ "\x27 connects to non-existent node \x27" ++ targetId ++ "\x27"))
    (some { nodeId := some srcId }) none

/-- Content of a `graph/unreachable-nodes` issue. -/
def unreachableData (nodeId : String) : IssueData :=
  mkIssueData "graph/unreachable-nodes" .e3310
    (some ("Node \x27" ++ nodeId ++ "\x27 is unreachable from entry points"))
    (some { nodeId := some nodeId }) none

/-- Content of a `variable/naming-convention` issue. -/
def varNamingData (name : String) : IssueData :=
  mkIssueData "variable/naming-convention" .e3312
    (some ("Variable name \x27" ++ name ++ "\x27 doesn\x27t follow naming convention"))
    (some { path := some ("variables." ++ name) })
    (some ["Use camelCase or snake_case naming"])

/-- The dangling edges of a node list: every `(source id, target id)` pair
whose target is not a declared node id, in traversal order. -/
def danglingEdges (nodes : List WorkflowNode) : List (String × String) :=
  nodes.flatMap (fun node =>
    ((node.connections.getD []).filter
      (fun t => !((nodes.map (·.id)).contains t))).map (fun t => (node.id, t)))

/-- Post-hoc filtering on issue contents (the spec-side counterpart of
`filterIssues`): drop exactly the issues whose rule id is absent from the
rule table or mapped to `off`. -/
def filterData (cfg : LintConfig) (issues : List IssueData) : List IssueData :=
  issues.filter (fun d => isRuleEnabled cfg d.ruleId)

/-- A rule table with every rule enabled, used only to instantiate the graph
construction inside the unconditional spec model. -/
def specAllOnConfig : LintConfig :=
  { rules := fun _ => some .error, settings := none }

/-- Unconditional structural checks (spec model): all four required-field
checks and the SemVer check attempted regardless of rule configuration. -/
def uncondStructureIssues (workflow : AutomaterWorkflow) : List IssueData :=
  (if !(strTruthy workflow.id) then [requiredFieldData "id"] else [])
    ++ (if !(strTruthy workflow.name) then [requiredFieldData "name"] else [])
    ++ (if !(strTruthy workflow.version) then [requiredFieldData "version"] else [])
    ++ (if workflow.trigger.isNone then [requiredFieldData "trigger"] else [])
    ++ (if strTruthy workflow.version && !(semverTest (workflow.version.getD ""))
        then [semverData] else [])

/-- Unconditional graph checks (spec model, §4.4 of the spec): one
`graph/missing-nodes` issue per dangling edge, dangling edges excluded from
adjacency, entry-point and unreachable checks always attempted. -/
def uncondGraphIssues (nodes : List WorkflowNode) : List IssueData :=
  if nodes.isEmpty then [] else
  let g := buildGraphData specAllOnConfig nodes 0
  let entryNodes := entryNodesOf nodes g.rev
  let reachable := entryNodes.foldl
    (fun vis node => dfs g.fwd (graphFuel nodes) vis node.id) []
  (danglingEdges nodes).map (fun p => mkMissingNodeData p.1 p.2)
    ++ (if entryNodes.isEmpty then
          [mkIssueData "graph/entry-points" .e3311
            (some "Workflow must have at least one entry point (trigger node)")
            (some { path := some "nodes" }) none]
        else [])
    ++ (nodes.filter (fun node => !(reachable.contains node.id))).map
        (fun node => unreachableData node.id)

/-- Unconditional per-node checks (spec model). -/
def uncondNodeListIssues (cfg : LintConfig) (nodes : List WorkflowNode) : List IssueData :=
  nodes.flatMap (fun node =>
    (if node.type == .action && !(strTruthy node.action) then
      [mkIssueData "action/missing-params" .e3311
        (some ("Action node \x27" ++ node.id ++ "\x27 is missing action type"))
        (some { nodeId := some node.id }) none]
     else [])
    ++ (if node.type == .action && node.weight.isNone then
      [mkIssueData "perf/missing-weight" .e4121
        (some ("Action node \x27" ++ node.id ++ "\x27 is missing rate limit weight"))
        (some { nodeId := some node.id })
        (some ["Add weight property (typical values: 5-30)"])]
     else [])
    ++ (if node.weight.isSome && node.weight.getD 0 > cfgMaxNodeWeight cfg then
      [mkIssueData "perf/high-weight" .e4120
        (some ("Node \x27" ++ node.id ++ "\x27 weight (" ++ toString (node.weight.getD 0)
          ++ ") exceeds recommended maximum (" ++ toString (cfgMaxNodeWeight cfg) ++ ")"))
        (some { nodeId := some node.id }) none]
     else []))

/-- Unconditional variable-naming checks (spec model). -/
def uncondVariableIssues (cfg : LintConfig) (vars : List VariableDefinition) : List IssueData :=
  (vars.filter (fun v => !((cfgVariableNamePattern cfg).test v.name))).map
    (fun v => varNamingData v.name)

/-- Unconditional performance checks (spec model); the early exit on an
absent node list is applicability, not rule gating, so it is kept. -/
def uncondPerformanceIssues (cfg : LintConfig) (workflow : AutomaterWorkflow) : List IssueData :=
  match workflow.nodes with
  | none => []
  | some nodes =>
    (if nodes.length > 50 then
      [mkIssueData "perf/large-workflow" .e4120
        (some ("Large workflow (" ++ toString nodes.length ++ " nodes) may be difficult to maintain"))
        (some { path := some "nodes" }) none]
     else [])
    ++ (let totalWeight : Int := nodes.foldl (fun sum node => sum + node.weight.getD 0) 0
        if (totalWeight : ℚ) > (cfgMaxWorkflowWeight cfg : ℚ) * cfgWarnThreshold cfg then
          [mkIssueData "perf/high-weight" .e4120
            (some ("Total workflow weight (" ++ toString totalWeight ++ ") approaches rate limit threshold"))
            (some { path := some "nodes" }) none]
        else [])

/-- Unconditional permission checks (spec model): one
`security/missing-permissions` issue per action node with an unknown action. -/
def uncondPermissionIssues (nodes : List WorkflowNode) : List IssueData :=
  nodes.flatMap (fun node =>
    if node.type == .action && strTruthy node.action
        && !(hasActionPermissionMapping (node.action.getD "")) then
      [mkIssueData "security/missing-permissions" .e3311
        (some ("Unknown action \x27" ++ node.action.getD ""
          ++ "\x27 - cannot detect required permissions"))
        (some { nodeId := some node.id })
        (some ["Check if action is implemented in permission-mappings.ts",
               "Add permission mapping for this action type"])]
    else [])

/-- The full unconditional-generation model of one run (spec model): every
validator attempts its checks in pipeline order, with only the applicability
guards of §4.7 (absent sections are skipped), and no rule gating. -/
def unconditionalIssues (cfg : LintConfig) (workflow : AutomaterWorkflow) : List IssueData :=
  uncondStructureIssues workflow
    ++ (match workflow.nodes with
        | some ns => if ns.length > 0 then uncondGraphIssues ns else []
        | none => [])
    ++ (match workflow.nodes with
        | some ns => uncondNodeListIssues cfg ns
        | none => [])
    ++ (match workflow.«variables» with
        | some vars => uncondVariableIssues cfg vars
        | none => [])
    ++ uncondPerformanceIssues cfg workflow
    ++ (match workflow.trigger, workflow.nodes with
        | some _, some ns => uncondPermissionIssues ns
        | _, _ => [])

/-- Sequential `detectRequiredPermissions` over a list of automations
(spec model for C8). -/
def detectAllPermissions : List AutomaterWorkflow → Except JsError (List (List String))
  | [] => .ok []
  | automation :: rest =>
    match detectRequiredPermissions automation with
    | .error e => .error e
    | .ok ps =>
      match detectAllPermissions rest with
      | .error e => .error e
      | .ok rs => .ok (ps :: rs)

/-- The sorted, duplicate-free union of `detectRequiredPermissions` applied
to each automation of the pack individually (spec model for C8). -/
def specPackPermissionUnion (pack : AutomaterPack) : Except JsError (List String) :=
  match detectAllPermissions (pack.automations.getD []) with
  | .error e => .error e
  | .ok perAutomation => .ok (sortStrings (perAutomation.flatten.dedup))

/-! ## Concrete inputs for the scenario claims, counterexamples and witnesses -/

/-- An event trigger on `send_message`. -/
def trigEventSendMessage : WorkflowTrigger :=
  { type := .event, event := some "send_message" }

/-- Scenario A: trigger `{event: "send_message"}` plus one
`{type: "action", action: "send_message"}` node. -/
def wfScenarioA : AutomaterWorkflow :=
  { id := some "wf-a", name := some "Scenario A", version := some "1.0.0"
    trigger := some trigEventSendMessage
    nodes := some [{ id := "node-1", type := .action, action := some "send_message" }] }

/-- Scenario B input: `version` absent, trigger present, empty node list. -/
def wfMissingVersion : AutomaterWorkflow :=
  { id := some "wf-b", name := some "Scenario B"
    trigger := some trigEventSendMessage, nodes := some [] }

/-- A workflow with both a trigger and a (non-empty) node list. -/
def wfTriggerAndNodes : AutomaterWorkflow :=
  { id := some "wf-c", name := some "C", version := some "1.0.0"
    trigger := some trigEventSendMessage
    nodes := some [{ id := "n1", type := .action, action := some "send_message" }] }

/-- The default configuration with `schema/required-fields` switched `off`
(and every other rule at its default). -/
def cfgNoRequiredFields : LintConfig :=
  { rules := fun r =>
      if r == "schema/required-fields" then some .off else defaultRulesList.lookup r
    settings := DEFAULT_LINT_CONFIG.settings }

/-- A workflow with an invalid `version` and no node list. -/
def wfBadVersionNoNodes : AutomaterWorkflow :=
  { id := some "wf-d", name := some "D", version := some "abc"
    trigger := some trigEventSendMessage }

/-- A node-free workflow with an invalid version and a badly named variable. -/
def wfC4Witness : AutomaterWorkflow :=
  { id := some "wf-e", name := some "E", version := some "not.semver"
    trigger := some trigEventSendMessage
    «variables» := some [⟨"Bad Name"⟩] }

/-- Two declared nodes; `a` additionally connects to the undeclared `ghost`. -/
def nodesWithDangling : List WorkflowNode :=
  [{ id := "a", type := .trigger, connections := some ["b", "ghost"] },
   { id := "b", type := .action, action := some "send_message"
     connections := some [], weight := some 5 }]

/-- A pack with an empty automation list. -/
def emptyPack : AutomaterPack :=
  { id := "pack-0", name := "Empty", version := "1.0.0", automations := some [] }

/-! ## Theorems -/

/-- Helper: a successful `try` block never replaces the workflow object:
with a node list present the run throws at step 3, and without one the
permission-inference step (the only mutating step) is never guarded in. -/
theorem validateWorkflowTry_ok_wf {cfg : LintConfig} {w : AutomaterWorkflow} {n : Nat}
    {r : RunOk} (h : validateWorkflowTry cfg w n = .ok r) : r.wf = w := by
  obtain ⟨wid, wname, wver, wtrig, wnodes, wperm, wvars⟩ := w
  rcases wnodes with _ | ns <;> rcases wvars with _ | vars <;> rcases wtrig with _ | t <;>
    (simp only [validateWorkflowTry] at h
     repeat split at h) <;>
    first
      | (injection h; done)
      | (injection h with h; subst h; rfl)

/-- C3 (code_bug evidence): a `validateWorkflow` run never annotates the
input workflow — the claimed permission side effect never happens, because
with both a trigger and a node list present the run throws at step 3
(spreading the `Promise` of the `async` `validateNodes`) and returns the
synthetic `SYS-5510` crash result, so `detectAndValidatePermissions` is
unreachable; concretely, on a workflow with trigger `send_message` and one
`send_message` action node, the returned issue list is the crash issue and
the workflow and node `permissions` fields stay unset. -/
theorem validateWorkflow_never_annotates_permissions :
    (∀ (cfg : LintConfig) (w : AutomaterWorkflow) (n : Nat),
        (validateWorkflow cfg w n).2.1 = w)
    ∧ (validateWorkflow DEFAULT_LINT_CONFIG wfTriggerAndNodes 1).1.issues.map
        (fun i => (i.ruleId, i.errorCode)) = [("system/parse-error", "SYS-5510")]
    ∧ (validateWorkflow DEFAULT_LINT_CONFIG wfTriggerAndNodes 1).2.1.permissions = none
    ∧ ((validateWorkflow DEFAULT_LINT_CONFIG wfTriggerAndNodes 1).2.1.nodes.getD []).map
        (·.permissions) = [none] := by
  refine ⟨?_, rfl, rfl, rfl⟩
  intro cfg w n
  unfold validateWorkflow
  rcases h : validateWorkflowTry cfg w n with r | r
  · rfl
  · simpa using validateWorkflowTry_ok_wf h

/-- C1: whenever the `try` block of `validateWorkflow` raises, the run still
returns a well-formed result whose issue list is exactly one synthetic
`SYS-5510` error-severity issue, with `isValid` false and a matching summary;
the engine is total (in this model `validateWorkflow` is a total function and
the exception is confined to the `try` payload). -/
theorem validateWorkflow_catch_sys5510 (cfg : LintConfig) (w : AutomaterWorkflow)
    (n : Nat) (r : RunErr) (h : validateWorkflowTry cfg w n = .error r) :
    (validateWorkflow cfg w n).1.isValid = false
    ∧ (validateWorkflow cfg w n).1.issues.map (fun i => (i.errorCode, i.severity))
        = [("SYS-5510", Severity.error)]
    ∧ (validateWorkflow cfg w n).1.summary = ⟨1, 1, 0, 0, 0⟩ := by
  refine ⟨?_, ?_, ?_⟩ <;>
    simp [validateWorkflow, h, createSystemError, LintIssue.errorCode, LintIssue.severity]

/-- Witness for C1: a concrete workflow with a trigger and one node makes the
`try` block throw (the `Promise` spread of step 3), and the theorem applies. -/
theorem validateWorkflow_catch_sys5510_witness :
    validateWorkflowTry DEFAULT_LINT_CONFIG wfTriggerAndNodes 1
        = .error ⟨.promiseSpread, 2, 9⟩
    ∧ ((validateWorkflow DEFAULT_LINT_CONFIG wfTriggerAndNodes 1).1.isValid = false
      ∧ (validateWorkflow DEFAULT_LINT_CONFIG wfTriggerAndNodes 1).1.issues.map
          (fun i => (i.errorCode, i.severity)) = [("SYS-5510", Severity.error)]
      ∧ (validateWorkflow DEFAULT_LINT_CONFIG wfTriggerAndNodes 1).1.summary
          = ⟨1, 1, 0, 0, 0⟩) :=
  ⟨rfl, validateWorkflow_catch_sys5510 DEFAULT_LINT_CONFIG wfTriggerAndNodes 1
    ⟨.promiseSpread, 2, 9⟩ rfl⟩

/-- C2 (code_bug evidence): on a workflow whose `version` is absent but which
carries a node list, `validateWorkflow` does *not* return the
`schema/required-fields` / `SYS-5511` issue the spec promises: step 3 spreads
the `Promise` of the `async` `validateNodes` and throws, so the result is the
single synthetic `system/parse-error` / `SYS-5510` issue (with `isValid`
false for the wrong reason). -/
theorem missingVersion_returns_crash_not_5511 :
    (validateWorkflow DEFAULT_LINT_CONFIG wfMissingVersion 1).1.issues.map
        (fun i => (i.ruleId, i.errorCode)) = [("system/parse-error", "SYS-5510")]
    ∧ (validateWorkflow DEFAULT_LINT_CONFIG wfMissingVersion 1).1.isValid = false :=
  ⟨rfl, rfl⟩

/-- C7 (Scenario A): trigger `{event: "send_message"}` and one
`{type: "action", action: "send_message"}` node yield exactly
`["SEND_MESSAGES", "VIEW_CHANNEL"]`. -/
theorem detectRequiredPermissions_scenarioA :
    detectRequiredPermissions wfScenarioA = .ok ["SEND_MESSAGES", "VIEW_CHANNEL"] := rfl

/-- C9: for every run, `isValid` is true iff the returned (filtered) issue
list contains zero error-severity and zero critical-severity issues — on the
success path by construction, and on the crash path both sides are false
(the single synthetic issue has error severity). -/
theorem isValid_iff_no_errors_no_criticals (cfg : LintConfig) (w : AutomaterWorkflow)
    (n : Nat) :
    (validateWorkflow cfg w n).1.isValid
      = (((validateWorkflow cfg w n).1.issues.countP
            (fun i => i.severity == Severity.error) == 0)
        && ((validateWorkflow cfg w n).1.issues.countP
            (fun i => i.severity == Severity.critical) == 0)) := by
  rcases h : validateWorkflowTry cfg w n with r | r <;>
    simp [validateWorkflow, h, createSystemError, LintIssue.severity,
      List.countP_eq_length_filter]

/-- Counterexample to C10 as stated: `"toString"` is absent from
`PERMISSION_SEVERITY`, yet `getPermissionSeverity` does not return `'safe'`
for it — the JS bracket lookup finds the truthy inherited
`Object.prototype.toString`, the `|| 'safe'` fallback never fires, and the
severity `switch` of `calculatePackPermissionWeight` then matches no case and
adds 0, not 1. -/
theorem unknown_permission_prototype_counterexample :
    PERMISSION_SEVERITY.lookup "toString" = none
    ∧ getPermissionSeverity "toString" ≠ .sev .safe
    ∧ permissionScore "toString" = 0 := by
  refine ⟨rfl, ?_, rfl⟩
  decide

/-- C10 (amended): a capability absent from `PERMISSION_SEVERITY` that is not
an `Object.prototype` property name is classified `safe` by
`getPermissionSeverity`, hence scored 1 (the lowest weight) by the scoring
function of `calculatePackPermissionWeight`; and — unconditionally —
`getDangerousPermissions` only ever returns capabilities present in the table
(a prototype member never strict-equals the string `'dangerous'`). -/
theorem unknown_permission_is_safe_amended (p : String)
    (hp : PERMISSION_SEVERITY.lookup p = none)
    (hproto : p ∉ OBJECT_PROTOTYPE_KEYS)
    (pack : AutomaterPack) (l : List String)
    (hl : getDangerousPermissions pack = .ok l) :
    getPermissionSeverity p = .sev .safe
    ∧ permissionScore p = 1
    ∧ l.all (fun q => (PERMISSION_SEVERITY.lookup q).isSome) = true := by
  have h1 : getPermissionSeverity p = .sev .safe := by
    unfold getPermissionSeverity
    rw [hp, if_neg hproto]
  refine ⟨h1, by simp [permissionScore, h1], ?_⟩
  unfold getDangerousPermissions at hl
  rcases hagg : aggregatePackPermissions pack with e | perms <;> rw [hagg] at hl
  · cases hl
  · injection hl with hl
    subst hl
    rw [List.all_eq_true]
    intro q hq
    rw [List.mem_filter] at hq
    obtain ⟨-, hsev⟩ := hq
    by_contra hnone
    have hnone' : PERMISSION_SEVERITY.lookup q = none := by
      cases hcase : PERMISSION_SEVERITY.lookup q with
      | none => rfl
      | some v => rw [hcase] at hnone; simp at hnone
    have hsafe : getPermissionSeverity q = .sev .safe
        ∨ getPermissionSeverity q = .protoMember q := by
      unfold getPermissionSeverity
      rw [hnone']
      by_cases hq2 : q ∈ OBJECT_PROTOTYPE_KEYS
      · exact Or.inr (by rw [if_pos hq2])
      · exact Or.inl (by rw [if_neg hq2])
    rcases hsafe with h | h <;> rw [h] at hsev <;> cases hsev

/-- Witness for the amended C10: `"NOT_A_PERMISSION"` is neither in the table
nor an `Object.prototype` property name, and the empty pack's
dangerous-permission list is `.ok []`. -/
theorem unknown_permission_is_safe_amended_witness :
    (PERMISSION_SEVERITY.lookup "NOT_A_PERMISSION" = none
      ∧ "NOT_A_PERMISSION" ∉ OBJECT_PROTOTYPE_KEYS
      ∧ getDangerousPermissions emptyPack = .ok [])
    ∧ (getPermissionSeverity "NOT_A_PERMISSION" = .sev .safe
      ∧ permissionScore "NOT_A_PERMISSION" = 1
      ∧ ([] : List String).all (fun q => (PERMISSION_SEVERITY.lookup q).isSome) = true) :=
  ⟨⟨rfl, by decide, rfl⟩,
   unknown_permission_is_safe_amended "NOT_A_PERMISSION" rfl (by decide)
     emptyPack [] rfl⟩

/-- Helper: unfolding one comparison step of `strLeB`. -/
theorem strLeB_cons_iff {a b : Char} {as bs : List Char} :
    strLeB (a :: as) (b :: bs) = true
      ↔ a < b ∨ (¬ a < b ∧ ¬ b < a ∧ strLeB as bs = true) := by
  by_cases h1 : a < b <;> by_cases h2 : b < a <;> simp [strLeB, h1, h2]

/-- Helper: `strLeB` is total. -/
theorem strLeB_total : ∀ as bs : List Char, strLeB as bs = true ∨ strLeB bs as = true := by
  intro as
  induction as with
  | nil => intro bs; exact Or.inl rfl
  | cons a as ih =>
    intro bs
    cases bs with
    | nil => exact Or.inr rfl
    | cons b bs =>
      by_cases hab : a < b
      · exact Or.inl (strLeB_cons_iff.2 (Or.inl hab))
      · by_cases hba : b < a
        · exact Or.inr (strLeB_cons_iff.2 (Or.inl hba))
        · rcases ih bs with h | h
          · exact Or.inl (strLeB_cons_iff.2 (Or.inr ⟨hab, hba, h⟩))
          · exact Or.inr (strLeB_cons_iff.2 (Or.inr ⟨hba, hab, h⟩))

/-- Helper: `strLeB` is transitive. -/
theorem strLeB_trans : ∀ as bs cs : List Char,
    strLeB as bs = true → strLeB bs cs = true → strLeB as cs = true := by
  intro as
  induction as with
  | nil => intro bs cs _ _; rfl
  | cons a as ih =>
    intro bs cs h1 h2
    cases bs with
    | nil => simp [strLeB] at h1
    | cons b bs =>
      cases cs with
      | nil => simp [strLeB] at h2
      | cons c cs =>
        rcases strLeB_cons_iff.1 h1 with hab | ⟨hab, hba, hrec1⟩
        · rcases strLeB_cons_iff.1 h2 with hbc | ⟨hbc, hcb, hrec2⟩
          · exact strLeB_cons_iff.2 (Or.inl (lt_trans hab hbc))
          · have hbc' : b = c := le_antisymm (le_of_not_lt hcb) (le_of_not_lt hbc)
            exact strLeB_cons_iff.2 (Or.inl (hbc' ▸ hab))
        · have hab' : a = b := le_antisymm (le_of_not_lt hba) (le_of_not_lt hab)
          subst hab'
          rcases strLeB_cons_iff.1 h2 with hac | ⟨hac, hca, hrec2⟩
          · exact strLeB_cons_iff.2 (Or.inl hac)
          · exact strLeB_cons_iff.2 (Or.inr ⟨hac, hca, ih bs cs hrec1 hrec2⟩)

/-- Helper: `strLeB` is antisymmetric. -/
theorem strLeB_antisymm : ∀ as bs : List Char,
    strLeB as bs = true → strLeB bs as = true → as = bs := by
  intro as
  induction as with
  | nil => intro bs _ h2; cases bs with
    | nil => rfl
    | cons b bs => simp [strLeB] at h2
  | cons a as ih =>
    intro bs h1 h2
    cases bs with
    | nil => simp [strLeB] at h1
    | cons b bs =>
      rcases strLeB_cons_iff.1 h1 with hab | ⟨hab, hba, hrec1⟩
      · rcases strLeB_cons_iff.1 h2 with hba | ⟨hba, hab', hrec2⟩
        · exact absurd (lt_trans hab hba) (lt_irrefl a)
        · exact absurd hab hab'
      · rcases strLeB_cons_iff.1 h2 with hba' | ⟨hba', hab', hrec2⟩
        · exact absurd hba' hba
        · have : a = b := le_antisymm (le_of_not_lt hba) (le_of_not_lt hab)
          rw [this, ih bs hrec1 hrec2]

instance : IsTotal String strLeR := ⟨fun a b => strLeB_total a.data b.data⟩

instance : IsTrans String strLeR := ⟨fun a b c => strLeB_trans a.data b.data c.data⟩

instance : IsAntisymm String strLeR :=
  ⟨fun a b h1 h2 => by
    cases a; cases b
    exact congrArg String.mk (strLeB_antisymm _ _ h1 h2)⟩

/-- Helper: membership in `setAdd`. -/
theorem mem_setAdd {s : List String} {x y : String} :
    x ∈ setAdd s y ↔ x ∈ s ∨ x = y := by
  by_cases h : y ∈ s <;> simp [setAdd, h]
  intro hx
  rw [hx]
  exact h

/-- Helper: `setAdd` preserves duplicate-freeness. -/
theorem nodup_setAdd {s : List String} (y : String) (h : s.Nodup) :
    (setAdd s y).Nodup := by
  by_cases hy : y ∈ s <;> simp [setAdd, hy, List.nodup_append, h]

/-- Helper: membership after folding `setAdd` over a list. -/
theorem mem_foldl_setAdd : ∀ (l acc : List String) (x : String),
    x ∈ l.foldl setAdd acc ↔ x ∈ acc ∨ x ∈ l := by
  intro l
  induction l with
  | nil => simp
  | cons y ys ih =>
    intro acc x
    rw [List.foldl_cons, ih, mem_setAdd]
    simp [or_assoc]

/-- Helper: folding `setAdd` preserves duplicate-freeness. -/
theorem nodup_foldl_setAdd : ∀ (l acc : List String), acc.Nodup →
    (l.foldl setAdd acc).Nodup := by
  intro l
  induction l with
  | nil => exact fun acc h => h
  | cons y ys ih =>
    intro acc h
    exact ih _ (nodup_setAdd y h)

/-- Helper: permutation of `sortStrings`. -/
theorem sortStrings_perm (l : List String) : (sortStrings l).Perm l :=
  List.perm_insertionSort strLeR l

/-- Helper: `sortStrings` sorts. -/
theorem sortStrings_sorted (l : List String) : (sortStrings l).Sorted strLeR :=
  List.sorted_insertionSort strLeR l

/-- Helper: two duplicate-free lists with the same members have the same
sorted form. -/
theorem sortStrings_eq_of_mem {l₁ l₂ : List String} (h1 : l₁.Nodup) (h2 : l₂.Nodup)
    (hm : ∀ x, x ∈ l₁ ↔ x ∈ l₂) : sortStrings l₁ = sortStrings l₂ := by
  have hp : l₁.Perm l₂ := (List.perm_ext_iff_of_nodup h1 h2).2 hm
  exact List.eq_of_perm_of_sorted
    ((sortStrings_perm l₁).trans (hp.trans (sortStrings_perm l₂).symm))
    (sortStrings_sorted l₁) (sortStrings_sorted l₂)

/-- Helper: the accumulation loop of `aggregatePackPermissions` against the
sequential per-automation model: same error behaviour, and on success a
duplicate-free accumulator holding exactly the union. -/
theorem collectPackPermissions_spec :
    ∀ (autos : List AutomaterWorkflow) (acc : List String),
    (∃ e, detectAllPermissions autos = .error e
        ∧ collectPackPermissions autos acc = .error e)
    ∨ (∃ rs s, detectAllPermissions autos = .ok rs
        ∧ collectPackPermissions autos acc = .ok s
        ∧ (acc.Nodup → s.Nodup)
        ∧ (∀ x, x ∈ s ↔ x ∈ acc ∨ x ∈ rs.flatten)) := by
  intro autos
  induction autos with
  | nil => intro acc; right; exact ⟨[], acc, rfl, rfl, id, by simp⟩
  | cons a rest ih =>
    intro acc
    rcases hd : detectRequiredPermissions a with e | ps
    · left
      exact ⟨e, by simp [detectAllPermissions, hd], by simp [collectPackPermissions, hd]⟩
    · rcases ih (ps.foldl setAdd acc) with ⟨e, he1, he2⟩ | ⟨rs, s, h1, h2, h3, h4⟩
      · left
        refine ⟨e, ?_, ?_⟩
        · simp [detectAllPermissions, hd, he1]
        · simp [collectPackPermissions, hd, he2]
      · right
        refine ⟨ps :: rs, s, ?_, ?_, ?_, ?_⟩
        · simp [detectAllPermissions, hd, h1]
        · simp [collectPackPermissions, hd, h2]
        · exact fun hacc => h3 (nodup_foldl_setAdd ps acc hacc)
        · intro x
          rw [h4 x, mem_foldl_setAdd]
          simp [or_assoc]

/-- C8: `aggregatePackPermissions` equals the sorted, duplicate-free union of
`detectRequiredPermissions` applied to each automation of the pack
individually, and a pack with an empty or missing automation list yields the
empty list. -/
theorem aggregatePackPermissions_eq_sorted_union (pack : AutomaterPack) :
    aggregatePackPermissions pack = specPackPermissionUnion pack
    ∧ aggregatePackPermissions { pack with automations := some [] } = .ok []
    ∧ aggregatePackPermissions { pack with automations := none } = .ok [] := by
  refine ⟨?_, rfl, rfl⟩
  unfold aggregatePackPermissions specPackPermissionUnion
  rcases collectPackPermissions_spec (pack.automations.getD []) [] with
    ⟨e, he1, he2⟩ | ⟨rs, s, h1, h2, h3, h4⟩
  · rw [he1, he2]
  · rw [h1, h2]
    show Except.ok (sortStrings s) = Except.ok (sortStrings rs.flatten.dedup)
    refine congrArg Except.ok (sortStrings_eq_of_mem (h3 List.nodup_nil)
      (List.nodup_dedup _) ?_)
    intro x
    rw [h4 x, List.mem_dedup]
    simp

/-- Helper: an element of `mset m k v` is an old entry or the new pair. -/
theorem mem_mset {m : List (String × List String)} {k : String} {v : List String}
    {p : String × List String} (h : p ∈ mset m k v) : p ∈ m ∨ p = (k, v) := by
  by_cases hk : (m.lookup k).isSome
  · rw [mset, if_pos hk] at h
    rcases List.mem_map.1 h with ⟨q, hq, hfq⟩
    by_cases hq1 : q.1 == k
    · right; rw [← hfq, if_pos hq1]
    · left; rw [← hfq, if_neg hq1]; exact hq
  · rw [mset, if_neg hk] at h
    rcases List.mem_append.1 h with h | h
    · exact Or.inl h
    · right; simpa using h

/-- Helper: an element of `mpush m k v` comes from an entry of `m`, either
unchanged or with `v` appended to its value list. -/
theorem mem_mpush {m : List (String × List String)} {k v : String}
    {p : String × List String} (h : p ∈ mpush m k v) :
    ∃ q ∈ m, p = q ∨ (p.1 = q.1 ∧ p.2 = q.2 ++ [v]) := by
  rcases List.mem_map.1 h with ⟨q, hq, hfq⟩
  refine ⟨q, hq, ?_⟩
  by_cases hq1 : q.1 == k
  · right
    rw [← hfq, if_pos hq1]
    exact ⟨rfl, rfl⟩
  · left
    rw [← hfq, if_neg hq1]

/-- Helper: every value list of `initAdj` is empty. -/
theorem initAdj_values_nil (nodes : List WorkflowNode) :
    ∀ q ∈ initAdj nodes, q.2 = [] := by
  have : ∀ (l : List WorkflowNode) (m : List (String × List String)),
      (∀ q ∈ m, q.2 = []) →
      ∀ q ∈ l.foldl (fun m node => mset m node.id []) m, q.2 = [] := by
    intro l
    induction l with
    | nil => exact fun m hm => hm
    | cons nd l ih =>
      intro m hm
      refine ih _ ?_
      intro q hq
      rcases mem_mset hq with h | h
      · exact hm q h
      · rw [h]
  exact this nodes [] (by simp)

/-- Helper: every key of `initAdj nodes` is a declared node id. -/
theorem initAdj_keys (nodes : List WorkflowNode) :
    ∀ q ∈ initAdj nodes, (nodes.map (·.id)).contains q.1 = true := by
  have : ∀ (l : List WorkflowNode) (m : List (String × List String)),
      (∀ nd ∈ l, (nodes.map (·.id)).contains nd.id = true) →
      (∀ q ∈ m, (nodes.map (·.id)).contains q.1 = true) →
      ∀ q ∈ l.foldl (fun m node => mset m node.id []) m,
        (nodes.map (·.id)).contains q.1 = true := by
    intro l
    induction l with
    | nil => exact fun m _ hm => hm
    | cons nd l ih =>
      intro m hl hm
      refine ih _ (fun x hx => hl x (List.mem_cons_of_mem _ hx)) ?_
      intro q hq
      rcases mem_mset hq with h | h
      · exact hm q h
      · rw [h]; exact hl nd (List.mem_cons_self _ _)
  refine this nodes [] ?_ (by simp)
  intro nd hnd
  exact List.elem_eq_true_of_mem (List.mem_map_of_mem _ hnd)

/-- Invariants of the connection-building loop: issues are all
`graph/missing-nodes`, forward-adjacency targets are declared when the rule is
enabled, and reverse-adjacency keys are always declared. -/
structure GraphBuildInv (cfg : LintConfig) (nodes : List WorkflowNode)
    (st : GraphBuild) : Prop where
  issues_ruleId : ∀ i ∈ st.issues, i.data.ruleId = "graph/missing-nodes"
  fwd_declared : isRuleEnabled cfg "graph/missing-nodes" = true →
    ∀ q ∈ st.fwd, ∀ t ∈ q.2, (nodes.map (·.id)).contains t = true
  rev_keys : ∀ q ∈ st.rev, (nodes.map (·.id)).contains q.1 = true

/-- Helper: `graphEdgeStep` preserves the build invariants. -/
theorem graphEdgeStep_inv {cfg : LintConfig} {nodes : List WorkflowNode}
    {node : WorkflowNode} {st : GraphBuild} (hinv : GraphBuildInv cfg nodes st)
    (t : String) :
    GraphBuildInv cfg nodes (graphEdgeStep cfg (nodes.map (·.id)) node st t) := by
  unfold graphEdgeStep
  by_cases hcond : (!((nodes.map (·.id)).contains t) && isRuleEnabled cfg "graph/missing-nodes") = true
  · rw [if_pos hcond]
    refine ⟨?_, hinv.fwd_declared, hinv.rev_keys⟩
    intro i hi
    rcases List.mem_append.1 hi with h | h
    · exact hinv.issues_ruleId i h
    · rw [List.mem_singleton.1 h]; rfl
  · rw [if_neg hcond]
    refine ⟨hinv.issues_ruleId, ?_, ?_⟩
    · intro hE q hq s hs
      rcases mem_mpush hq with ⟨q0, hq0, h | ⟨h1, h2⟩⟩
      · exact hinv.fwd_declared hE q0 hq0 s (h ▸ hs)
      · rw [h2] at hs
        rcases List.mem_append.1 hs with h | h
        · exact hinv.fwd_declared hE q0 hq0 s h
        · rw [List.mem_singleton.1 h]
          rw [Bool.and_eq_true, Bool.not_eq_true'] at hcond
          rcases Bool.eq_false_or_eq_true ((nodes.map (·.id)).contains t) with ht | hf
          · exact ht
          · exact absurd ⟨hf, hE⟩ hcond
    · intro q hq
      rcases mem_mpush hq with ⟨q0, hq0, h | ⟨h1, h2⟩⟩
      · rw [h]; exact hinv.rev_keys q0 hq0
      · rw [h1]; exact hinv.rev_keys q0 hq0

/-- Helper: the edge loop preserves the build invariants. -/
theorem foldl_edgeStep_inv {cfg : LintConfig} {nodes : List WorkflowNode}
    {node : WorkflowNode} :
    ∀ (conns : List String) (st : GraphBuild), GraphBuildInv cfg nodes st →
    GraphBuildInv cfg nodes
      (conns.foldl (graphEdgeStep cfg (nodes.map (·.id)) node) st) := by
  intro conns
  induction conns with
  | nil => exact fun st h => h
  | cons t ts ih =>
    intro st h
    exact ih _ (graphEdgeStep_inv h t)

/-- Helper: `buildGraphData` satisfies the build invariants. -/
theorem buildGraphData_inv (cfg : LintConfig) (nodes : List WorkflowNode) (n : Nat) :
    GraphBuildInv cfg nodes (buildGraphData cfg nodes n) := by
  have start : GraphBuildInv cfg nodes
      { fwd := initAdj nodes, rev := initAdj nodes, issues := [], counter := n } := by
    refine ⟨by simp, ?_, initAdj_keys nodes⟩
    intro _ q hq t ht
    rw [initAdj_values_nil nodes q hq] at ht
    cases ht
  have : ∀ (l : List WorkflowNode) (st : GraphBuild), GraphBuildInv cfg nodes st →
      GraphBuildInv cfg nodes (l.foldl (graphNodeStep cfg (nodes.map (·.id))) st) := by
    intro l
    induction l with
    | nil => exact fun st h => h
    | cons nd l ih =>
      intro st h
      exact ih _ (foldl_edgeStep_inv _ _ h)
  exact this nodes _ start

/-- Helper: `graphEdgeStep` on a declared target leaves the issues alone. -/
theorem graphEdgeStep_issues_declared {cfg : LintConfig} {ids : List String}
    {node : WorkflowNode} {st : GraphBuild} {t : String}
    (hct : ids.contains t = true) :
    (graphEdgeStep cfg ids node st t).issues = st.issues := by
  unfold graphEdgeStep
  rw [if_neg (by rw [hct]; simp)]

/-- Helper: `graphEdgeStep` on a dangling target (rule enabled) appends the
`graph/missing-nodes` issue. -/
theorem graphEdgeStep_issues_dangling {cfg : LintConfig} {ids : List String}
    {node : WorkflowNode} {st : GraphBuild} {t : String}
    (hct : ids.contains t = false)
    (hE : isRuleEnabled cfg "graph/missing-nodes" = true) :
    ((graphEdgeStep cfg ids node st t).issues).map LintIssue.data
      = st.issues.map LintIssue.data ++ [mkMissingNodeData node.id t] := by
  unfold graphEdgeStep
  rw [if_pos (by rw [hct, hE]; rfl)]
  simp [createIssue]
  rfl

/-- Helper: issue contents produced by the edge loop, with the
`graph/missing-nodes` rule enabled: exactly one issue per dangling target. -/
theorem foldl_edgeStep_issues {cfg : LintConfig} {nodes : List WorkflowNode}
    {node : WorkflowNode} (hE : isRuleEnabled cfg "graph/missing-nodes" = true) :
    ∀ (conns : List String) (st : GraphBuild),
    ((conns.foldl (graphEdgeStep cfg (nodes.map (·.id)) node) st).issues).map LintIssue.data
      = st.issues.map LintIssue.data
        ++ (conns.filter (fun t => !((nodes.map (·.id)).contains t))).map
            (fun t => mkMissingNodeData node.id t) := by
  intro conns
  induction conns with
  | nil => simp
  | cons t ts ih =>
    intro st
    rw [List.foldl_cons, ih]
    by_cases hct : (nodes.map (·.id)).contains t = true
    · rw [graphEdgeStep_issues_declared hct,
        List.filter_cons_of_neg
          (by show ¬(!((nodes.map (·.id)).contains t)) = true; rw [hct]; decide)]
    · have hctf : (nodes.map (·.id)).contains t = false := eq_false_of_ne_true hct
      rw [graphEdgeStep_issues_dangling hctf hE,
        List.filter_cons_of_pos
          (by show (!((nodes.map (·.id)).contains t)) = true; rw [hctf]; rfl),
        List.map_cons, List.append_assoc, List.singleton_append]

/-- Helper: issue contents produced by the whole connection-building loop. -/
theorem buildGraphData_issues (cfg : LintConfig) (nodes : List WorkflowNode)
    (hE : isRuleEnabled cfg "graph/missing-nodes" = true) :
    ∀ (l : List WorkflowNode) (st : GraphBuild),
    ((l.foldl (graphNodeStep cfg (nodes.map (·.id))) st).issues).map LintIssue.data
      = st.issues.map LintIssue.data
        ++ l.flatMap (fun node =>
            ((node.connections.getD []).filter
              (fun t => !((nodes.map (·.id)).contains t))).map
              (fun t => mkMissingNodeData node.id t)) := by
  intro l
  induction l with
  | nil => simp
  | cons nd l ih =>
    intro st
    rw [List.foldl_cons]
    show ((l.foldl (graphNodeStep cfg (nodes.map (·.id)))
      ((nd.connections.getD []).foldl (graphEdgeStep cfg (nodes.map (·.id)) nd) st)).issues).map
        LintIssue.data = _
    rw [ih, foldl_edgeStep_issues hE]
    simp [List.flatMap_cons]

/-- Helper: every issue of the unreachable-reporting loop is an accumulator
issue or carries the content `unreachableData m.id` for some listed node. -/
theorem unreachableStep_mem :
    ∀ (l : List WorkflowNode) (acc : List LintIssue × Nat),
    ∀ i ∈ (l.foldl unreachableStep acc).1,
      i ∈ acc.1 ∨ ∃ m ∈ l, i.data = unreachableData m.id := by
  intro l
  induction l with
  | nil => exact fun acc i hi => Or.inl hi
  | cons nd l ih =>
    intro acc i hi
    rcases ih _ i hi with h | ⟨m, hm, hdata⟩
    · rcases List.mem_append.1 h with h | h
      · exact Or.inl h
      · refine Or.inr ⟨nd, List.mem_cons_self _ _, ?_⟩
        rw [List.mem_singleton.1 h]
        rfl
    · exact Or.inr ⟨m, List.mem_cons_of_mem _ hm, hdata⟩

/-- C5: with the `graph/missing-nodes` rule enabled, graph-integrity analysis
reports exactly one `graph/missing-nodes` issue per dangling edge, with code
`AUT-3311`, located at the source node (first conjunct: the filtered issue
contents are exactly `mkMissingNodeData src tgt` per dangling `(src, tgt)`
pair in traversal order), and the dangling edge is added to neither adjacency
list: every forward-adjacency target and every reverse-adjacency key is a
declared node id, so dangling edges contribute nothing to the reachability
computation. -/
theorem graph_dangling_edges_reported_and_excluded (cfg : LintConfig)
    (nodes : List WorkflowNode) (st : Nat)
    (hE : isRuleEnabled cfg "graph/missing-nodes" = true) :
    ((validateGraphIntegrity cfg nodes st).1.filter
        (fun i => i.ruleId == "graph/missing-nodes")).map LintIssue.data
      = (danglingEdges nodes).map (fun p => mkMissingNodeData p.1 p.2)
    ∧ ((buildGraphData cfg nodes st).fwd.all
        (fun kv => kv.2.all (fun t => (nodes.map (·.id)).contains t))) = true
    ∧ ((buildGraphData cfg nodes st).rev.all
        (fun kv => (nodes.map (·.id)).contains kv.1)) = true := by
  have hinv := buildGraphData_inv cfg nodes st
  refine ⟨?_, ?_, ?_⟩
  · by_cases hne : nodes.isEmpty
    · have : nodes = [] := List.isEmpty_iff.mp hne
      subst this
      simp [validateGraphIntegrity, danglingEdges]
    · unfold validateGraphIntegrity
      rw [if_neg hne]
      have hmain : ((buildGraphData cfg nodes st).issues.filter
          (fun i => i.ruleId == "graph/missing-nodes")).map LintIssue.data
            = (danglingEdges nodes).map (fun p => mkMissingNodeData p.1 p.2) := by
        have hall : (buildGraphData cfg nodes st).issues.filter
            (fun i => i.ruleId == "graph/missing-nodes")
              = (buildGraphData cfg nodes st).issues := by
          rw [List.filter_eq_self]
          intro i hi
          have := hinv.issues_ruleId i hi
          simp [LintIssue.ruleId, this]
        rw [hall]
        have := buildGraphData_issues cfg nodes hE nodes
          { fwd := initAdj nodes, rev := initAdj nodes, issues := [], counter := st }
        rw [show (buildGraphData cfg nodes st) = nodes.foldl
          (graphNodeStep cfg (nodes.map (·.id)))
          { fwd := initAdj nodes, rev := initAdj nodes, issues := [], counter := st }
          from rfl, this]
        simp [danglingEdges, List.map_flatMap, List.map_map, Function.comp_def]
      rw [List.filter_append, List.filter_append, List.map_append, List.map_append, hmain]
      have hentry : ∀ (b : List LintIssue),
          (∀ i ∈ b, i.data.ruleId ≠ "graph/missing-nodes") →
          b.filter (fun i => i.ruleId == "graph/missing-nodes") = [] := by
        intro b hb
        rw [List.filter_eq_nil_iff]
        intro i hi
        simp [LintIssue.ruleId, hb i hi]
      rw [hentry _ ?he, hentry _ ?hu]
      · simp
      case he =>
        intro i hi
        split at hi
        · rw [List.mem_singleton.1 hi]
          simp only [createIssue, mkIssueData]
          decide
        · cases hi
      case hu =>
        intro i hi
        split at hi
        · rcases unreachableStep_mem _ _ i hi with h | ⟨m, _, hdata⟩
          · cases h
          · rw [hdata]
            simp only [unreachableData, mkIssueData]
            decide
        · cases hi
  · rw [List.all_eq_true]
    intro kv hkv
    rw [List.all_eq_true]
    intro t ht
    exact hinv.fwd_declared hE kv hkv t ht
  · rw [List.all_eq_true]
    intro kv hkv
    exact hinv.rev_keys kv hkv

/-- Witness for C5: the default configuration enables `graph/missing-nodes`,
and on two nodes where `a` targets `b` and the undeclared `ghost`, the run
reports exactly the one dangling edge and both adjacency maps stay declared. -/
theorem graph_dangling_edges_witness :
    isRuleEnabled DEFAULT_LINT_CONFIG "graph/missing-nodes" = true
    ∧ (((validateGraphIntegrity DEFAULT_LINT_CONFIG nodesWithDangling 1).1.filter
          (fun i => i.ruleId == "graph/missing-nodes")).map LintIssue.data
        = (danglingEdges nodesWithDangling).map (fun p => mkMissingNodeData p.1 p.2)
      ∧ ((buildGraphData DEFAULT_LINT_CONFIG nodesWithDangling 1).fwd.all
          (fun kv => kv.2.all (fun t => (nodesWithDangling.map (·.id)).contains t))) = true
      ∧ ((buildGraphData DEFAULT_LINT_CONFIG nodesWithDangling 1).rev.all
          (fun kv => (nodesWithDangling.map (·.id)).contains kv.1)) = true) :=
  ⟨rfl, graph_dangling_edges_reported_and_excluded DEFAULT_LINT_CONFIG
    nodesWithDangling 1 rfl⟩

/-- Helper: `dfs` only ever grows the visited set. -/
theorem subset_dfs (fwd : List (String × List String)) :
    ∀ (fuel : Nat) (vis : List String) (nid x : String),
    x ∈ vis → x ∈ dfs fwd fuel vis nid := by
  intro fuel
  induction fuel with
  | zero => exact fun vis nid x hx => hx
  | succ fuel ih =>
    intro vis nid x hx
    have aux : ∀ (l : List String) (v : List String), x ∈ v →
        x ∈ l.foldl (fun vis connected => dfs fwd fuel vis connected) v := by
      intro l
      induction l with
      | nil => exact fun v hv => hv
      | cons c cs ihc => exact fun v hv => ihc _ (ih _ _ _ hv)
    simp only [dfs]
    by_cases h : nid ∈ vis
    · rw [if_pos h]; exact hx
    · rw [if_neg h]
      exact aux _ _ (List.mem_cons_of_mem _ hx)

/-- Helper: folding `dfs` over a neighbor list grows the visited set. -/
theorem subset_dfs_foldl (fwd : List (String × List String)) (fuel : Nat) :
    ∀ (l : List WorkflowNode) (v : List String) (x : String), x ∈ v →
    x ∈ l.foldl (fun vis nd => dfs fwd fuel vis nd.id) v := by
  intro l
  induction l with
  | nil => exact fun v x hv => hv
  | cons nd l ih => exact fun v x hv => ih _ _ (subset_dfs fwd fuel _ _ _ hv)

/-- Helper: with at least one unit of fuel, `dfs` visits its start node. -/
theorem mem_dfs_self (fwd : List (String × List String)) (fuel : Nat)
    (vis : List String) (nid : String) : nid ∈ dfs fwd (fuel + 1) vis nid := by
  simp only [dfs]
  by_cases h : nid ∈ vis
  · rw [if_pos h]; exact h
  · rw [if_neg h]
    have aux : ∀ (l : List String) (v : List String), nid ∈ v →
        nid ∈ l.foldl (fun vis connected => dfs fwd fuel vis connected) v := by
      intro l
      induction l with
      | nil => exact fun v hv => hv
      | cons c cs ihc => exact fun v hv => ihc _ (subset_dfs fwd fuel _ _ _ hv)
    exact aux _ _ (List.mem_cons_self _ _)

/-- Helper: every entry node's id ends up in the reachable set. -/
theorem mem_entry_foldl (fwd : List (String × List String)) (fuel : Nat) :
    ∀ (entries : List WorkflowNode) (vis : List String) (node : WorkflowNode),
    node ∈ entries →
    node.id ∈ entries.foldl (fun vis nd => dfs fwd (fuel + 1) vis nd.id) vis := by
  intro entries
  induction entries with
  | nil => intro vis node h; cases h
  | cons e es ih =>
    intro vis node h
    rcases List.mem_cons.1 h with rfl | h
    · rw [List.foldl_cons]
      exact subset_dfs_foldl fwd (fuel + 1) es _ _ (mem_dfs_self fwd fuel vis node.id)
    · rw [List.foldl_cons]
      exact ih _ _ h

/-- C6: the Graph Integrity Analyzer never emits a `graph/unreachable-nodes`
issue located at the id of a node that is itself an entry point (trigger kind,
or zero incoming edges in the reverse adjacency built by the analyzer). -/
theorem entry_points_never_unreachable (cfg : LintConfig) (nodes : List WorkflowNode)
    (st : Nat) (node : WorkflowNode) (hmem : node ∈ nodes)
    (hentry : node.type = .trigger
      ∨ (((buildGraphData cfg nodes st).rev.lookup node.id).getD []).length = 0) :
    ((validateGraphIntegrity cfg nodes st).1.filter
        (fun i => i.ruleId == "graph/unreachable-nodes"
          && locNodeId i == some node.id)).length = 0 := by
  have hinv := buildGraphData_inv cfg nodes st
  by_cases hne : nodes.isEmpty
  · rw [List.isEmpty_iff.mp hne] at hmem
    cases hmem
  · unfold validateGraphIntegrity
    rw [if_neg hne, List.length_eq_zero, List.filter_eq_nil_iff]
    intro i hi
    rcases List.mem_append.1 hi with hi | hiu
    · rcases List.mem_append.1 hi with hig | hie
      · have hrule := hinv.issues_ruleId i hig
        simp [LintIssue.ruleId, hrule]
      · split at hie
        · rw [List.mem_singleton.1 hie]
          simp [LintIssue.ruleId, createIssue, mkIssueData]
        · cases hie
    · split at hiu
      · rcases unreachableStep_mem _ _ i hiu with h | ⟨m, hmU, hdata⟩
        · cases h
        · intro hp
          rw [Bool.and_eq_true] at hp
          obtain ⟨-, hp2⟩ := hp
          have hloc : locNodeId i = some node.id := by
            simpa using hp2
          have hmid : m.id = node.id := by
            rw [locNodeId, hdata] at hloc
            simpa [unreachableData, mkIssueData] using hloc
          obtain ⟨-, hfm⟩ := List.mem_filter.1 hmU
          rw [Bool.not_eq_true'] at hfm
          have hnodeEntry : node ∈ entryNodesOf nodes (buildGraphData cfg nodes st).rev := by
            refine List.mem_filter.2 ⟨hmem, ?_⟩
            rcases hentry with h | h <;> simp [h]
          have hreach : node.id ∈ (entryNodesOf nodes (buildGraphData cfg nodes st).rev).foldl
              (fun vis nd => dfs (buildGraphData cfg nodes st).fwd (graphFuel nodes) vis nd.id)
              [] := by
            exact mem_entry_foldl (buildGraphData cfg nodes st).fwd
              (nodes.length + nodes.foldl
                (fun a node => a + (node.connections.getD []).length) 0)
              _ [] node hnodeEntry
          rw [hmid] at hfm
          have hc : ((entryNodesOf nodes (buildGraphData cfg nodes st).rev).foldl
              (fun vis nd => dfs (buildGraphData cfg nodes st).fwd (graphFuel nodes) vis nd.id)
              []).contains node.id = true := List.elem_eq_true_of_mem hreach
          rw [hc] at hfm
          cases hfm
      · cases hiu

/-- Helper: filtering commutes with projecting issue contents. -/
theorem filterIssues_map_data (cfg : LintConfig) :
    ∀ l : List LintIssue,
    (filterIssues cfg l).map LintIssue.data = filterData cfg (l.map LintIssue.data) := by
  intro l
  induction l with
  | nil => rfl
  | cons i l ih =>
    unfold filterIssues filterData at *
    simp only [LintIssue.ruleId] at ih ⊢
    by_cases h : isRuleEnabled cfg i.data.ruleId = true
    · rw [List.filter_cons, List.map_cons, List.filter_cons, if_pos h, if_pos h,
        List.map_cons, ih]
    · rw [List.filter_cons, List.map_cons, List.filter_cons, if_neg h, if_neg h, ih]

/-- Helper: `filterData` distributes over concatenation. -/
theorem filterData_append (cfg : LintConfig) (a b : List IssueData) :
    filterData cfg (a ++ b) = filterData cfg a ++ filterData cfg b := by
  unfold filterData
  rw [List.filter_append]

/-- Helper: post-hoc filtering of the gated structural issues equals post-hoc
filtering of the unconditional structural model, provided
`schema/required-fields` is enabled whenever `schema/semver` is (otherwise the
early return suppresses the SemVer check at generation time). -/
theorem structure_filter_eq (cfg : LintConfig) (w : AutomaterWorkflow) (n : Nat)
    (h3 : isRuleEnabled cfg "schema/required-fields" = true
      ∨ isRuleEnabled cfg "schema/semver" = false) :
    filterData cfg (((validateWorkflowStructure cfg w n).1).map LintIssue.data)
      = filterData cfg (uncondStructureIssues w) := by
  by_cases hreq : isRuleEnabled cfg "schema/required-fields" = true
  · rcases Bool.eq_false_or_eq_true (strTruthy w.id) with h1 | h1 <;>
    rcases Bool.eq_false_or_eq_true (strTruthy w.name) with h2 | h2 <;>
    rcases Bool.eq_false_or_eq_true (strTruthy w.version) with hv | hv <;>
    rcases Bool.eq_false_or_eq_true w.trigger.isNone with h4 | h4 <;>
    rcases Bool.eq_false_or_eq_true (isRuleEnabled cfg "schema/semver") with h5 | h5 <;>
    rcases Bool.eq_false_or_eq_true (semverTest (w.version.getD "")) with h6 | h6 <;>
      simp [validateWorkflowStructure, uncondStructureIssues, filterData, hreq,
        h1, h2, hv, h4, h5, h6, mkRequiredFieldIssue, createIssue, mkIssueData,
        requiredFieldData, semverData, LintIssue.ruleId, LintIssue.data]
  · have hreqf : isRuleEnabled cfg "schema/required-fields" = false :=
      eq_false_of_ne_true hreq
    have hsem : isRuleEnabled cfg "schema/semver" = false := by
      rcases h3 with h | h
      · exact absurd h hreq
      · exact h
    rcases Bool.eq_false_or_eq_true (strTruthy w.id) with h1 | h1 <;>
    rcases Bool.eq_false_or_eq_true (strTruthy w.name) with h2 | h2 <;>
    rcases Bool.eq_false_or_eq_true (strTruthy w.version) with hv | hv <;>
    rcases Bool.eq_false_or_eq_true w.trigger.isNone with h4 | h4 <;>
    rcases Bool.eq_false_or_eq_true (semverTest (w.version.getD "")) with h6 | h6 <;>
      simp [validateWorkflowStructure, uncondStructureIssues, filterData, hreqf, hsem,
        h1, h2, hv, h4, h6, mkRequiredFieldIssue, createIssue, mkIssueData,
        requiredFieldData, semverData, LintIssue.ruleId, LintIssue.data]

/-- Helper: issue contents of the variable-naming loop. -/
theorem foldl_variableNamingStep_data (test : String → Bool) :
    ∀ (vars : List VariableDefinition) (acc : List LintIssue × Nat),
    ((vars.foldl (variableNamingStep test) acc).1).map LintIssue.data
      = acc.1.map LintIssue.data
        ++ (vars.filter (fun v => !(test v.name))).map (fun v => varNamingData v.name) := by
  intro vars
  induction vars with
  | nil => simp
  | cons v vs ih =>
    intro acc
    rw [List.foldl_cons, ih]
    rcases Bool.eq_false_or_eq_true (test v.name) with ht | ht
    · have hstep : variableNamingStep test acc v = acc := by
        unfold variableNamingStep
        rw [if_neg (by simp [ht])]
      rw [hstep, List.filter_cons_of_neg (by simp [ht])]
    · have hstep : (variableNamingStep test acc v).1
          = acc.1 ++ [(createIssue "variable/naming-convention" .e3312
              (some ("Variable name \x27" ++ v.name ++ "\x27 doesn\x27t follow naming convention"))
              (some { path := some ("variables." ++ v.name) })
              (some ["Use camelCase or snake_case naming"]) acc.2).1] := by
        unfold variableNamingStep
        rw [if_pos (by simp [ht])]
      rw [hstep, List.filter_cons_of_pos (by simp [ht]), List.map_append, List.map_cons]
      simp [createIssue, varNamingData, LintIssue.data]

/-- Helper: with a compiling pattern, `validateVariables` succeeds and its
filtered issue contents equal the filtered unconditional variable model. -/
theorem validateVariables_filtered (cfg : LintConfig) (vars : List VariableDefinition)
    (n : Nat) (hc : (cfgVariableNamePattern cfg).compiles = true) :
    ∃ res n2, validateVariables cfg vars n = .ok (res, n2)
      ∧ filterData cfg (res.map LintIssue.data)
          = filterData cfg (uncondVariableIssues cfg vars) := by
  rcases Bool.eq_false_or_eq_true (isRuleEnabled cfg "variable/naming-convention") with he | he
  · refine ⟨(variableLoop (cfgVariableNamePattern cfg).test vars n).1,
      (variableLoop (cfgVariableNamePattern cfg).test vars n).2, ?_, ?_⟩
    · unfold validateVariables
      rw [if_neg (by simp [he]), if_neg (by simp [hc])]
    · unfold variableLoop
      rw [foldl_variableNamingStep_data]
      simp [uncondVariableIssues]
  · refine ⟨[], n, ?_, ?_⟩
    · unfold validateVariables
      rw [if_pos (by simp [he])]
    · rw [show filterData cfg (([] : List LintIssue).map LintIssue.data) = [] from rfl]
      symm
      unfold filterData
      rw [List.filter_eq_nil_iff]
      intro d hd
      unfold uncondVariableIssues at hd
      rcases List.mem_map.1 hd with ⟨v, hv, rfl⟩
      simp [varNamingData, mkIssueData, he]

/-- Counterexample to C4 as stated: with `schema/required-fields` switched
`off` (everything else at its default) and a workflow whose `version` is the
invalid string `"abc"`, the run returns no issues at all (the early return of
the structural validator suppresses the SemVer check at generation time),
while the unconditional-generation-then-filter model keeps a `schema/semver`
issue, whose rule is still enabled. -/
theorem ruleGating_not_postHoc_counterexample :
    ¬ ((validateWorkflow cfgNoRequiredFields wfBadVersionNoNodes 1).1.issues.map
          LintIssue.data
        = filterData cfgNoRequiredFields
            (unconditionalIssues cfgNoRequiredFields wfBadVersionNoNodes)) := by
  decide

/-- C4 (amended): for a workflow without a node list (with one, the run
aborts into the `SYS-5510` crash result before any validator), with a
compiling variable pattern when variables are present, and with
`schema/required-fields` enabled whenever `schema/semver` is, the returned
issue list equals the unconditional-generation model filtered post-hoc by the
rule table (issue contents compared; diagnostic ids are generation-order
artifacts). -/
theorem postHoc_filter_equivalence_amended (cfg : LintConfig) (w : AutomaterWorkflow)
    (n : Nat) (h1 : w.nodes = none)
    (h2 : w.«variables» = none ∨ (cfgVariableNamePattern cfg).compiles = true)
    (h3 : isRuleEnabled cfg "schema/required-fields" = true
      ∨ isRuleEnabled cfg "schema/semver" = false) :
    (validateWorkflow cfg w n).1.issues.map LintIssue.data
      = filterData cfg (unconditionalIssues cfg w) := by
  have hperf : ∀ m, validatePerformance cfg w m = ([], m) := fun m => by
    unfold validatePerformance
    rw [h1]
  rcases hv : w.«variables» with _ | vars
  · rcases ht : w.trigger with _ | t <;>
    · have htry : validateWorkflowTry cfg w n = .ok
          { issues := (validateWorkflowStructure cfg w n).1 ++ [] ++ [] ++ []
            wf := w
            counter := (validateWorkflowStructure cfg w n).2
            rulesExecuted := 4 + 3 } := by
        simp only [validateWorkflowTry, h1, hv, ht, hperf]
      have hRHS : unconditionalIssues cfg w = uncondStructureIssues w := by
        unfold unconditionalIssues uncondPerformanceIssues
        rw [h1, hv, ht]
        simp
      simp only [validateWorkflow, htry]
      rw [List.append_nil, List.append_nil, List.append_nil,
        filterIssues_map_data, hRHS]
      exact structure_filter_eq cfg w n h3
  · have hcomp : (cfgVariableNamePattern cfg).compiles = true := by
      rcases h2 with h | h
      · rw [hv] at h; cases h
      · exact h
    obtain ⟨res, n2, hvv, hfil⟩ :=
      validateVariables_filtered cfg vars ((validateWorkflowStructure cfg w n).2) hcomp
    rcases ht : w.trigger with _ | t <;>
    · have htry : validateWorkflowTry cfg w n = .ok
          { issues := (validateWorkflowStructure cfg w n).1 ++ [] ++ res ++ []
            wf := w
            counter := n2
            rulesExecuted := 4 + vars.length * 2 + 3 } := by
        simp only [validateWorkflowTry, h1, hv, ht, hperf, hvv]
      have hRHS : unconditionalIssues cfg w
          = uncondStructureIssues w ++ uncondVariableIssues cfg vars := by
        unfold unconditionalIssues uncondPerformanceIssues
        rw [h1, hv, ht]
        simp
      simp only [validateWorkflow, htry]
      rw [List.append_nil, List.append_nil, filterIssues_map_data, List.map_append,
        hRHS, filterData_append, filterData_append,
        structure_filter_eq cfg w n h3, hfil]

/-- Witness for the amended C4: the default configuration and a node-free
workflow with an invalid version and a badly named variable satisfy the
hypotheses, and the equality holds there. -/
theorem postHoc_filter_equivalence_amended_witness :
    (wfC4Witness.nodes = none
      ∧ (wfC4Witness.«variables» = none
        ∨ (cfgVariableNamePattern DEFAULT_LINT_CONFIG).compiles = true)
      ∧ (isRuleEnabled DEFAULT_LINT_CONFIG "schema/required-fields" = true
        ∨ isRuleEnabled DEFAULT_LINT_CONFIG "schema/semver" = false))
    ∧ (validateWorkflow DEFAULT_LINT_CONFIG wfC4Witness 1).1.issues.map LintIssue.data
        = filterData DEFAULT_LINT_CONFIG
            (unconditionalIssues DEFAULT_LINT_CONFIG wfC4Witness) :=
  ⟨⟨rfl, Or.inr rfl, Or.inl rfl⟩,
   postHoc_filter_equivalence_amended DEFAULT_LINT_CONFIG wfC4Witness 1 rfl
     (Or.inr rfl) (Or.inl rfl)⟩

/-- Witness for C6: the trigger node `a` of the dangling-edge example is an
entry point, and the run emits no `graph/unreachable-nodes` issue at its id. -/
theorem entry_points_never_unreachable_witness :
    ((⟨"a", .trigger, none, some ["b", "ghost"], none, none⟩ : WorkflowNode)
        ∈ nodesWithDangling
      ∧ (⟨"a", .trigger, none, some ["b", "ghost"], none, none⟩ : WorkflowNode).type
          = .trigger)
    ∧ ((validateGraphIntegrity DEFAULT_LINT_CONFIG nodesWithDangling 1).1.filter
        (fun i => i.ruleId == "graph/unreachable-nodes"
          && locNodeId i == some "a")).length = 0 :=
  ⟨⟨List.mem_cons_self _ _, rfl⟩,
   entry_points_never_unreachable DEFAULT_LINT_CONFIG nodesWithDangling 1
     ⟨"a", .trigger, none, some ["b", "ghost"], none, none⟩
     (List.mem_cons_self _ _) (Or.inl rfl)⟩
